import Mathlib

/-!
Verification development for the wextractor repository: a shallow embedding of
the DXT1/DXT3/DXT5 block decoders, the mipmap frame decompressor, the texture
stream parser and the package reader, together with theorems settling the
specification claims.

Bytes are modelled as `Nat` (each produced byte is < 256 by construction of
the source's arithmetic).  Python sequence indexing, which raises `IndexError`
when out of range, is modelled by `pyAt` returning `Except`.  The numpy pixel
array of `src/wextractor/DXT.py` is modelled by `PixBuf`, whose checked `set`
mirrors numpy's bounds-checked assignment.  Fallible Python code is embedded
in `Except String`.
-/

/-- Python sequence indexing: `l[i]`, raising `IndexError` when out of range. -/
def pyAt {α : Type} (l : List α) (i : Nat) : Except String α :=
  match l[i]? with
  | some a => .ok a
  | none => .error "IndexError"

/-- Point update of a `Nat → Nat` byte store (a Python `bytearray` cell write). -/
def updN (f : Nat → Nat) (i v : Nat) : Nat → Nat :=
  fun j => if j = i then v else f j

theorem pyAt_ok {α : Type} (l : List α) (i : Nat) (h : i < l.length) :
    pyAt l i = .ok l[i] := by
  simp [pyAt, List.getElem?_eq_getElem h]

theorem updN_ne (f : Nat → Nat) (i v j : Nat) (h : j ≠ i) : updN f i v j = f j := by
  simp [updN, h]

theorem updN_eq (f : Nat → Nat) (i v : Nat) : updN f i v i = v := by
  simp [updN]

/-- Indexed invariant lemma for `List.foldlM` in the `Except` monad: if every
step starting from a state satisfying the invariant at its position succeeds
and establishes the invariant at the next position, the whole fold succeeds. -/
theorem foldlM_invariant {σ α : Type} (Q : Nat → σ → Prop)
    (l : List α) (f : σ → α → Except String σ) (init : σ)
    (h0 : Q 0 init)
    (hstep : ∀ i (hi : i < l.length) st, Q i st →
      ∃ st', f st l[i] = .ok st' ∧ Q (i + 1) st') :
    ∃ fin, l.foldlM f init = .ok fin ∧ Q l.length fin := by
  induction l generalizing Q init with
  | nil => exact ⟨init, rfl, h0⟩
  | cons a t ih =>
    obtain ⟨st1, hf, hQ1⟩ := hstep 0 (by simp) init h0
    obtain ⟨fin, hfold, hQf⟩ := ih (fun i => Q (i + 1)) st1 hQ1
      (fun i hi st hQ => hstep (i + 1) (by simpa using hi) st hQ)
    simp only [List.getElem_cons_zero] at hf
    refine ⟨fin, ?_, hQf⟩
    show (f init a >>= fun s => List.foldlM f s t) = Except.ok fin
    rw [hf]
    exact hfold

/-- Plain preserved-invariant corollary of `foldlM_invariant`. -/
theorem foldlM_pres {σ α : Type} (P : σ → Prop)
    (l : List α) (f : σ → α → Except String σ) (init : σ)
    (h0 : P init)
    (hstep : ∀ a, a ∈ l → ∀ st, P st → ∃ st', f st a = .ok st' ∧ P st') :
    ∃ fin, l.foldlM f init = .ok fin ∧ P fin := by
  obtain ⟨fin, h1, h2⟩ := foldlM_invariant (fun _ st => P st) l f init h0
    (fun i hi st hP => hstep l[i] (List.getElem_mem hi) st hP)
  exact ⟨fin, h1, h2⟩

/-! ## `src/wextractor/DXT.py` -/

/-- `DXTFlags` of `src/wextractor/enums.py` as used by `decompress_image`
(`DXT1 = 1`, `DXT3 = 2`, `DXT5 = 4`; `decompress_image` compares by equality). -/
inductive DXTFlags where
  | DXT1
  | DXT3
  | DXT5
  deriving DecidableEq, Repr

/-- An RGBA quadruple (one palette entry of `_decompress_dxt1_block`). -/
structure RGBA where
  r : Nat
  g : Nat
  b : Nat
  a : Nat
  deriving DecidableEq, Repr

/-- The numpy array `np.zeros((height, width, channels), dtype=np.uint8)` of
`decompress_image`, as a total value function plus its dimensions. -/
structure PixBuf where
  height : Nat
  width : Nat
  channels : Nat
  val : Nat → Nat → Nat → Nat

/-- Bounds-checked element assignment `pixels[y, x, c] = v` (numpy raises on
an out-of-range index). -/
def PixBuf.set (pb : PixBuf) (y x c v : Nat) : Except String PixBuf :=
  if y < pb.height ∧ x < pb.width ∧ c < pb.channels then
    .ok { pb with val := fun y' x' c' => if y' = y ∧ x' = x ∧ c' = c then v else pb.val y' x' c' }
  else
    .error "IndexError"

/-- `pixels.tobytes()`: row-major flattening of the array. -/
def PixBuf.tobytes (pb : PixBuf) : List Nat :=
  (List.range pb.height).flatMap fun y =>
    (List.range pb.width).flatMap fun x =>
      (List.range pb.channels).map fun c => pb.val y x c

/-- The 4-entry DXT1 palette of `_decompress_dxt1_block` (lines 80-117):
RGB565 endpoints are expanded with `* 255 // 31` (5-bit) and `* 255 // 63`
(6-bit); slots 2/3 are thirds-interpolants when `color0 > color1`, otherwise
the floor average and transparent black. -/
def wDxt1Palette (color0 color1 : Nat) : List RGBA :=
  let r0 := ((color0 >>> 11) &&& 31) * 255 / 31
  let g0 := ((color0 >>> 5) &&& 63) * 255 / 63
  let b0 := (color0 &&& 31) * 255 / 31
  let r1 := ((color1 >>> 11) &&& 31) * 255 / 31
  let g1 := ((color1 >>> 5) &&& 63) * 255 / 63
  let b1 := (color1 &&& 31) * 255 / 31
  [⟨r0, g0, b0, 255⟩, ⟨r1, g1, b1, 255⟩] ++
    (if color0 > color1 then
      [⟨(2 * r0 + r1) / 3, (2 * g0 + g1) / 3, (2 * b0 + b1) / 3, 255⟩,
       ⟨(r0 + 2 * r1) / 3, (g0 + 2 * g1) / 3, (b0 + 2 * b1) / 3, 255⟩]
    else
      [⟨(r0 + r1) / 2, (g0 + g1) / 2, (b0 + b1) / 2, 255⟩,
       ⟨0, 0, 0, 0⟩])

/-- The always-4-colour RGB palette shared by `_decompress_dxt3_block`
(lines 156-175) and `_decompress_dxt5_block` (lines 244-263). -/
def wDxtColorPalette (color0 color1 : Nat) : List (Nat × Nat × Nat) :=
  let r0 := ((color0 >>> 11) &&& 31) * 255 / 31
  let g0 := ((color0 >>> 5) &&& 63) * 255 / 63
  let b0 := (color0 &&& 31) * 255 / 31
  let r1 := ((color1 >>> 11) &&& 31) * 255 / 31
  let g1 := ((color1 >>> 5) &&& 63) * 255 / 63
  let b1 := (color1 &&& 31) * 255 / 31
  [(r0, g0, b0), (r1, g1, b1),
   ((2 * r0 + r1) / 3, (2 * g0 + g1) / 3, (2 * b0 + b1) / 3),
   ((r0 + 2 * r1) / 3, (g0 + 2 * g1) / 3, (b0 + 2 * b1) / 3)]

/-- The 2-bit colour index table: byte `i+4` of the colour sub-block packs the
codes of pixels `i*4 .. i*4+3`, least-significant pair first. -/
def wColorIndices (i0 i1 i2 i3 : Nat) : List Nat :=
  [i0, i1, i2, i3].flatMap fun byte =>
    (List.range 4).map fun j => (byte >>> (j * 2)) &&& 0x3

/-- The DXT5 8-entry alpha codebook of `_decompress_dxt5_block` lines 210-221. -/
def wAlphaPalette (alpha0 alpha1 : Nat) : List Nat :=
  [alpha0, alpha1] ++
    (if alpha0 > alpha1 then
      (List.range 6).map fun i => ((6 - i) * alpha0 + (i + 1) * alpha1) / 7
    else
      ((List.range 4).map fun i => ((4 - i) * alpha0 + (i + 1) * alpha1) / 5) ++ [0, 255])

/-- The DXT3 explicit alpha table: byte `i` holds two 4-bit nibbles scaled by
17 for pixels `2i` and `2i+1` (lines 146-151). -/
def wDxt3Alphas (bytes : List Nat) : List Nat :=
  bytes.flatMap fun byte => [(byte &&& 0xF) * 17, (byte >>> 4) * 17]

/-- The 16 tile positions `(i, j)` in the order of the source's nested
`for i in range(4): for j in range(4)` loops. -/
def pairs44 : List (Nat × Nat) :=
  (List.range 4).flatMap fun i => (List.range 4).map fun j => (i, j)

/-- The DXT5 alpha index decoding loop of `_decompress_dxt5_block`
(lines 223-239), with its accumulator state `(bits, current_byte)`; the byte
loaded at step `i` is `block_data[2 + (i*3) // 8]` (an index between 2 and 7,
always in range for a 16-byte block; `bl` holds the block's bytes). -/
def wDxt5AlphaIndices (bl : List Nat) : List Nat :=
  (((List.range 16).foldl (fun (st : Nat × Nat × List Nat) i =>
    let (bits, currentByte, acc) := st
    let (bits, currentByte) :=
      if bits < 3 then
        (bits + 8, currentByte ||| (bl.getD (2 + (i * 3) / 8) 0 <<< bits))
      else (bits, currentByte)
    (bits - 3, currentByte >>> 3, acc ++ [currentByte &&& 0x7])) (0, 0, [])).2).2

/-- `_decompress_dxt1_block`: the 8 block bytes are read (raising on a short
block), the palette and index table built, and the guarded writes performed;
the alpha channel is written only when the array has more than 3 channels. -/
def wDxt1Block (blockData : List Nat) (pixels : PixBuf) (x y width height : Nat) :
    Except String PixBuf := do
  let b0 ← pyAt blockData 0
  let b1 ← pyAt blockData 1
  let b2 ← pyAt blockData 2
  let b3 ← pyAt blockData 3
  let b4 ← pyAt blockData 4
  let b5 ← pyAt blockData 5
  let b6 ← pyAt blockData 6
  let b7 ← pyAt blockData 7
  let color0 := b0 ||| (b1 <<< 8)
  let color1 := b2 ||| (b3 <<< 8)
  let palette := wDxt1Palette color0 color1
  let indices := wColorIndices b4 b5 b6 b7
  pairs44.foldlM (fun pixels (p : Nat × Nat) => do
    let (i, j) := p
    if y + i < height ∧ x + j < width then do
      let colorIdx ← pyAt indices (i * 4 + j)
      let color ← pyAt palette colorIdx
      let pixels ← pixels.set (y + i) (x + j) 0 color.r
      let pixels ← pixels.set (y + i) (x + j) 1 color.g
      let pixels ← pixels.set (y + i) (x + j) 2 color.b
      if 3 < pixels.channels then pixels.set (y + i) (x + j) 3 color.a
      else pure pixels
    else pure pixels) pixels

/-- `_decompress_dxt3_block`: 8 alpha bytes, then the colour sub-block
`block_data[8:16]`; the palette is always the 4-colour one. -/
def wDxt3Block (blockData : List Nat) (pixels : PixBuf) (x y width height : Nat) :
    Except String PixBuf := do
  let a0 ← pyAt blockData 0
  let a1 ← pyAt blockData 1
  let a2 ← pyAt blockData 2
  let a3 ← pyAt blockData 3
  let a4 ← pyAt blockData 4
  let a5 ← pyAt blockData 5
  let a6 ← pyAt blockData 6
  let a7 ← pyAt blockData 7
  let alphas := wDxt3Alphas [a0, a1, a2, a3, a4, a5, a6, a7]
  let c0 ← pyAt blockData 8
  let c1 ← pyAt blockData 9
  let c2 ← pyAt blockData 10
  let c3 ← pyAt blockData 11
  let c4 ← pyAt blockData 12
  let c5 ← pyAt blockData 13
  let c6 ← pyAt blockData 14
  let c7 ← pyAt blockData 15
  let color0 := c0 ||| (c1 <<< 8)
  let color1 := c2 ||| (c3 <<< 8)
  let palette := wDxtColorPalette color0 color1
  let indices := wColorIndices c4 c5 c6 c7
  pairs44.foldlM (fun pixels (p : Nat × Nat) => do
    let (i, j) := p
    if y + i < height ∧ x + j < width then do
      let colorIdx ← pyAt indices (i * 4 + j)
      let color ← pyAt palette colorIdx
      let alpha ← pyAt alphas (i * 4 + j)
      let pixels ← pixels.set (y + i) (x + j) 0 color.1
      let pixels ← pixels.set (y + i) (x + j) 1 color.2.1
      let pixels ← pixels.set (y + i) (x + j) 2 color.2.2
      pixels.set (y + i) (x + j) 3 alpha
    else pure pixels) pixels

/-- `_decompress_dxt5_block`: alpha endpoints and codebook, the (source's)
alpha index loop, then the colour sub-block `block_data[8:16]`. -/
def wDxt5Block (blockData : List Nat) (pixels : PixBuf) (x y width height : Nat) :
    Except String PixBuf := do
  let b0 ← pyAt blockData 0
  let b1 ← pyAt blockData 1
  let b2 ← pyAt blockData 2
  let b3 ← pyAt blockData 3
  let b4 ← pyAt blockData 4
  let b5 ← pyAt blockData 5
  let b6 ← pyAt blockData 6
  let b7 ← pyAt blockData 7
  let c0 ← pyAt blockData 8
  let c1 ← pyAt blockData 9
  let c2 ← pyAt blockData 10
  let c3 ← pyAt blockData 11
  let c4 ← pyAt blockData 12
  let c5 ← pyAt blockData 13
  let c6 ← pyAt blockData 14
  let c7 ← pyAt blockData 15
  let alphaPalette := wAlphaPalette b0 b1
  let alphaIndices :=
    wDxt5AlphaIndices [b0, b1, b2, b3, b4, b5, b6, b7, c0, c1, c2, c3, c4, c5, c6, c7]
  let color0 := c0 ||| (c1 <<< 8)
  let color1 := c2 ||| (c3 <<< 8)
  let palette := wDxtColorPalette color0 color1
  let indices := wColorIndices c4 c5 c6 c7
  pairs44.foldlM (fun pixels (p : Nat × Nat) => do
    let (i, j) := p
    if y + i < height ∧ x + j < width then do
      let colorIdx ← pyAt indices (i * 4 + j)
      let alphaIdx ← pyAt alphaIndices (i * 4 + j)
      let color ← pyAt palette colorIdx
      let alpha ← pyAt alphaPalette alphaIdx
      let pixels ← pixels.set (y + i) (x + j) 0 color.1
      let pixels ← pixels.set (y + i) (x + j) 1 color.2.1
      let pixels ← pixels.set (y + i) (x + j) 2 color.2.2
      pixels.set (y + i) (x + j) 3 alpha
    else pure pixels) pixels

/-- `decompress_image` of `src/wextractor/DXT.py`: raises on data shorter than
the full tile grid, decodes row-major 4x4 blocks (`block_idx = by*bw + bx`),
and returns the flattened array (3 channels for DXT1, 4 for DXT3/DXT5; for
DXT1 the `pixels[:, :, :3]` slice equals the whole 3-channel array). -/
def wDecompressImage (width height : Nat) (data : List Nat) (formatType : DXTFlags) :
    Except String (List Nat) := do
  let blockSize : Nat := match formatType with
    | .DXT1 => 8
    | .DXT3 | .DXT5 => 16
  let hasAlpha : Bool := match formatType with
    | .DXT1 => false
    | .DXT3 | .DXT5 => true
  let blocksWidth := (width + 3) / 4
  let blocksHeight := (height + 3) / 4
  let expectedSize := blocksWidth * blocksHeight * blockSize
  if data.length < expectedSize then
    .error "ValueError: Data size mismatch"
  else do
    let channels := if hasAlpha then 4 else 3
    let pixels : PixBuf := ⟨height, width, channels, fun _ _ _ => 0⟩
    let pixels ← (List.range blocksHeight).foldlM (fun pixels by_ =>
      (List.range blocksWidth).foldlM (fun pixels bx => do
        let blockIdx := by_ * blocksWidth + bx
        let offset := blockIdx * blockSize
        let blockData := (data.drop offset).take blockSize
        let x := bx * 4
        let y := by_ * 4
        match formatType with
        | .DXT1 => wDxt1Block blockData pixels x y width height
        | .DXT3 => wDxt3Block blockData pixels x y width height
        | .DXT5 => wDxt5Block blockData pixels x y width height) pixels) pixels
    pure pixels.tobytes

example : wDecompressImage 4 4 (List.replicate 8 0) .DXT1 = .ok (List.replicate 48 0) := by
  rfl

example : wDecompressImage 4 4 (List.replicate 7 0) .DXT1 =
    .error "ValueError: Data size mismatch" := by rfl

/-! ## `src/DXT.py` (the legacy camelCase decoder ported from RePKG) -/

/-- `DXTFlags.DXT1 = 1` as an `IntFlag` bit (used with `&` in `src/DXT.py`). -/
def sDXT1 : Nat := 1

/-- `DXTFlags.DXT3 = 1 << 1`. -/
def sDXT3 : Nat := 2

/-- `DXTFlags.DXT5 = 1 << 2`. -/
def sDXT5 : Nat := 4

/-- `unpack565` of `src/DXT.py`: builds the packed little-endian 16-bit value,
extracts the 5/6/5-bit components, scales each to 8 bits by bit replication
(`(v << 3) | (v >> 2)` and `(v << 2) | (v >> 4)`) and writes the four colour
bytes into `colour` at `colourOffset`, returning the updated store and the
packed value. -/
def sUnpack565 (block : List Nat) (blockIndex packedOffset : Nat)
    (colour : Nat → Nat) (colourOffset : Nat) : Except String ((Nat → Nat) × Nat) := do
  let lo ← pyAt block (blockIndex + packedOffset)
  let hi ← pyAt block (blockIndex + 1 + packedOffset)
  let value := lo ||| (hi <<< 8)
  let red := (value >>> 11) &&& 0x1F
  let green := (value >>> 5) &&& 0x3F
  let blue := value &&& 0x1F
  let colour := updN colour (0 + colourOffset) ((red <<< 3) ||| (red >>> 2))
  let colour := updN colour (1 + colourOffset) ((green <<< 2) ||| (green >>> 4))
  let colour := updN colour (2 + colourOffset) ((blue <<< 3) ||| (blue >>> 2))
  let colour := updN colour (3 + colourOffset) 255
  pure (colour, value)

/-- `decompressColor` of `src/DXT.py`, including its (mis-indented) structure:
the index-unpacking and store loops are nested inside the midpoint loop
`for i in range(3)`, the index loop reads only 3 of the 4 index bytes, and the
`rgba` tile is fully rewritten on each of the 3 outer iterations (the final
iteration, with the palette complete except indices 12-15 defaulting to 0,
determines the result). -/
def sDecompressColor (rgba : Nat → Nat) (block : List Nat) (blockIndex : Nat)
    (isDxt1 : Bool) : Except String (Nat → Nat) := do
  let codes : Nat → Nat := fun _ => 0
  let (codes, a) ← sUnpack565 block blockIndex 0 codes 0
  let (codes, b) ← sUnpack565 block blockIndex 2 codes 4
  let st ← (List.range 3).foldlM (fun (st : (Nat → Nat) × (Nat → Nat)) i => do
    let (codes, rgba) := st
    let c := codes i
    let d := codes (4 + i)
    let codes :=
      if isDxt1 ∧ a ≤ b then
        updN (updN codes (8 + i) ((c + d) / 2)) (12 + i) 0
      else
        updN (updN codes (8 + i) ((2 * c + d) / 3)) (12 + i) ((c + 2 * d) / 3)
    let codes := updN codes (8 + 3) 255
    let codes := updN codes (12 + 3) (if isDxt1 ∧ a ≤ b then 0 else 255)
    let indices ← (List.range 3).foldlM (fun (ind : Nat → Nat) i => do
      let packed ← pyAt block (blockIndex + 4 + i)
      let ind := updN ind (0 + i * 4) (packed &&& 0x3)
      let ind := updN ind (1 + i * 4) ((packed >>> 2) &&& 0x3)
      let ind := updN ind (2 + i * 4) ((packed >>> 4) &&& 0x3)
      let ind := updN ind (3 + i * 4) ((packed >>> 6) &&& 0x3)
      pure ind) (fun _ => 0)
    let rgba := (List.range 16).foldl (fun rgba i =>
      let offset := 4 * indices i
      let rgba := updN rgba (4 * i + 0) (codes (offset + 0))
      let rgba := updN rgba (4 * i + 1) (codes (offset + 1))
      let rgba := updN rgba (4 * i + 2) (codes (offset + 2))
      updN rgba (4 * i + 3) (codes (offset + 3))) rgba
    pure (codes, rgba)) (codes, rgba)
  pure st.2

/-- `decompressAlphaDxt3` of `src/DXT.py`: the two nibbles of byte `i` become
the alpha bytes of pixels `2i` and `2i+1` (`lo | lo << 4`, `hi | hi >> 4`). -/
def sDecompressAlphaDxt3 (rgba : Nat → Nat) (block : List Nat) (blockIndex : Nat) :
    Except String (Nat → Nat) :=
  (List.range 8).foldlM (fun rgba i => do
    let quant ← pyAt block (blockIndex + i)
    let lo := quant &&& 0x0F
    let hi := quant &&& 0xF0
    let rgba := updN rgba (8 * i + 3) (lo ||| (lo <<< 4))
    pure (updN rgba (8 * i + 7) (hi ||| (hi >>> 4)))) rgba

/-- `decompressAlphaDxt5` of `src/DXT.py`, with its source-level quirks: both
codebook loops run `for i in range(5)` starting at `codes[1+i]` (so `codes[1]`
is overwritten with `alpha0`, and in the `alpha0 > alpha1` case `codes[6]` and
`codes[7]` keep their zero initialisation); indices are read as two 24-bit
little-endian chunks. -/
def sDecompressAlphaDxt5 (rgba : Nat → Nat) (block : List Nat) (blockIndex : Nat) :
    Except String (Nat → Nat) := do
  let alpha0 ← pyAt block (blockIndex + 0)
  let alpha1 ← pyAt block (blockIndex + 1)
  let codes : Nat → Nat := fun _ => 0
  let codes := updN codes 0 alpha0
  let codes := updN codes 1 alpha1
  let codes :=
    if alpha0 ≤ alpha1 then
      (List.range 5).foldl (fun codes i =>
        let codes := updN codes (1 + i) (((5 - i) * alpha0 + i * alpha1) / 5)
        let codes := updN codes 6 0
        updN codes 7 255) codes
    else
      (List.range 5).foldl (fun codes i =>
        updN codes (i + 1) (((7 - i) * alpha0 + i * alpha1) / 7)) codes
  let st ← (List.range 2).foldlM
    (fun (st : (Nat → Nat) × Nat × Nat) _ => do
      let (indices, blockSrcPos, indicesPos) := st
      let vp ← (List.range 3).foldlM (fun (vp : Nat × Nat) j => do
        let byte ← pyAt block (blockIndex + vp.2)
        pure (vp.1 ||| (byte <<< (8 * j)), vp.2 + 1)) ((0 : Nat), blockSrcPos)
      let (value, blockSrcPos) := vp
      let (indices, indicesPos) := (List.range 8).foldl
        (fun (st3 : (Nat → Nat) × Nat) j =>
          (updN st3.1 st3.2 ((value >>> (3 * j)) &&& 0x07), st3.2 + 1))
        (indices, indicesPos)
      pure (indices, blockSrcPos, indicesPos)) ((fun _ => 0), 2, 0)
  let indices := st.1
  let rgba := (List.range 16).foldl (fun rgba i =>
    updN rgba (4 * i + 3) (codes (indices i))) rgba
  pure rgba

/-- `decompress` of `src/DXT.py`: the colour sub-block starts 8 bytes in for
DXT3/DXT5, and the alpha pass runs after the colour pass when flagged. -/
def sDecompress (rgba : Nat → Nat) (block : List Nat) (blockIndex : Nat)
    (flags : Nat) : Except String (Nat → Nat) := do
  let colorBlockIndex :=
    if flags &&& (sDXT3 ||| sDXT5) ≠ 0 then blockIndex + 8 else blockIndex
  let rgba ← sDecompressColor rgba block colorBlockIndex (flags &&& sDXT1 ≠ 0)
  if flags &&& sDXT3 ≠ 0 then
    sDecompressAlphaDxt3 rgba block blockIndex
  else if flags &&& sDXT5 ≠ 0 then
    sDecompressAlphaDxt5 rgba block blockIndex
  else
    pure rgba

/-- Python's `range(0, n, 4)` as the list `[0, 4, ..., 4*(ceil(n/4)-1)]`. -/
def range4 (n : Nat) : List Nat :=
  (List.range ((n + 3) / 4)).map fun b => 4 * b

/-- The guarded copy of the decompressed 64-byte tile `targetRGBA` into the
image buffer (`decompressImage` lines 160-174): `targetRGBA_pos` advances by 4
for every tile position whether or not the pixel is written, so it equals
`4*(4*py+px)`; out-of-range pixels are ignored. -/
def sWriteTile (rgba : Nat → Nat) (targetRGBA : Nat → Nat) (x y width height : Nat) :
    Nat → Nat :=
  pairs44.foldl (fun rgba (p : Nat × Nat) =>
    let (py, px) := p
    let sx := x + px
    let sy := y + py
    if sx < width ∧ sy < height then
      let targetPixel := 4 * (width * sy + sx)
      let tpos := 4 * (4 * py + px)
      let rgba := updN rgba (targetPixel + 0) (targetRGBA (tpos + 0))
      let rgba := updN rgba (targetPixel + 1) (targetRGBA (tpos + 1))
      let rgba := updN rgba (targetPixel + 2) (targetRGBA (tpos + 2))
      updN rgba (targetPixel + 3) (targetRGBA (tpos + 3))
    else rgba) rgba

/-- `decompressImage` of `src/DXT.py`: a zero-initialised `width*height*4`
buffer; row-major 4-strided tiles; a tile whose block offset has exactly
consumed the input is skipped (left zero); the scratch tile buffer and the
input position are threaded through the loop. -/
def sDecompressImage (width height : Nat) (data : List Nat) (flags : Nat) :
    Except String (List Nat) := do
  let rgba : Nat → Nat := fun _ => 0
  let bytesPerBlock : Nat := if flags &&& sDXT1 ≠ 0 then 8 else 16
  let targetRGBA : Nat → Nat := fun _ => 0
  let st ← (range4 height).foldlM (fun st y =>
    (range4 width).foldlM (fun (st : (Nat → Nat) × (Nat → Nat) × Nat) x => do
      let (rgba, targetRGBA, sourceBlockPos) := st
      if data.length = sourceBlockPos then
        pure (rgba, targetRGBA, sourceBlockPos)
      else do
        let targetRGBA ← sDecompress targetRGBA data sourceBlockPos flags
        let rgba := sWriteTile rgba targetRGBA x y width height
        pure (rgba, targetRGBA, sourceBlockPos + bytesPerBlock)) st)
    (rgba, targetRGBA, 0)
  pure ((List.range (width * height * 4)).map st.1)

set_option maxRecDepth 4000 in
example : sDecompressImage 4 4 (List.replicate 8 0) sDXT1 =
    .ok (List.replicate 16 [0, 0, 0, 255]).flatten := by rfl

theorem except_bind_ok {α β : Type} (a : α) (f : α → Except String β) :
    (Except.ok a >>= f : Except String β) = f a := rfl

theorem except_bind_error {α β : Type} (e : String) (f : α → Except String β) :
    ((Except.error e : Except String α) >>= f) = .error e := rfl

theorem except_map_ok {α β : Type} (f : α → β) (a : α) :
    (f <$> (Except.ok a : Except String α)) = .ok (f a) := rfl

theorem except_map_error {α β : Type} (f : α → β) (e : String) :
    (f <$> (Except.error e : Except String α)) = .error e := rfl

theorem except_pure {α : Type} (a : α) : (pure a : Except String α) = .ok a := rfl

/-! ## Claim C6: DXT1 palette selection; DXT3/DXT5 always 4-colour -/

/-- C6: for every pair of raw packed 16-bit RGB565 endpoints, the DXT1 palette
(`_decompress_dxt1_block`) has slots 2/3 equal to the componentwise
thirds-interpolants with alpha 255 when `color0 > color1`, and otherwise the
componentwise floor average with alpha 255 and transparent black; the shared
DXT3/DXT5 palette (`_decompress_dxt3_block` / `_decompress_dxt5_block`)
is the 4-colour thirds palette regardless of the endpoint ordering. -/
theorem claim_C6_dxt1_palette_selection (color0 color1 : Nat)
    (r0 g0 b0 r1 g1 b1 : Nat)
    (hr0 : r0 = ((color0 >>> 11) &&& 31) * 255 / 31)
    (hg0 : g0 = ((color0 >>> 5) &&& 63) * 255 / 63)
    (hb0 : b0 = (color0 &&& 31) * 255 / 31)
    (hr1 : r1 = ((color1 >>> 11) &&& 31) * 255 / 31)
    (hg1 : g1 = ((color1 >>> 5) &&& 63) * 255 / 63)
    (hb1 : b1 = (color1 &&& 31) * 255 / 31) :
    (wDxt1Palette color0 color1)[0]? = some ⟨r0, g0, b0, 255⟩ ∧
    (wDxt1Palette color0 color1)[1]? = some ⟨r1, g1, b1, 255⟩ ∧
    (wDxt1Palette color0 color1)[2]? =
      some (if color0 > color1 then
          ⟨(2 * r0 + r1) / 3, (2 * g0 + g1) / 3, (2 * b0 + b1) / 3, 255⟩
        else ⟨(r0 + r1) / 2, (g0 + g1) / 2, (b0 + b1) / 2, 255⟩) ∧
    (wDxt1Palette color0 color1)[3]? =
      some (if color0 > color1 then
          ⟨(r0 + 2 * r1) / 3, (g0 + 2 * g1) / 3, (b0 + 2 * b1) / 3, 255⟩
        else ⟨0, 0, 0, 0⟩) ∧
    wDxtColorPalette color0 color1 =
      [(r0, g0, b0), (r1, g1, b1),
       ((2 * r0 + r1) / 3, (2 * g0 + g1) / 3, (2 * b0 + b1) / 3),
       ((r0 + 2 * r1) / 3, (g0 + 2 * g1) / 3, (b0 + 2 * b1) / 3)] := by
  subst hr0 hg0 hb0 hr1 hg1 hb1
  refine ⟨?_, ?_, ?_, ?_, rfl⟩ <;>
    · simp only [wDxt1Palette]
      split <;> simp

/-- Witness for C6: the endpoints 65535 and 0 (white above black in RGB565)
instantiate the palette characterisation. -/
theorem claim_C6_dxt1_palette_selection_witness :
    (wDxt1Palette 65535 0)[0]? = some ⟨255, 255, 255, 255⟩ ∧
    (wDxt1Palette 65535 0)[1]? = some ⟨0, 0, 0, 255⟩ ∧
    (wDxt1Palette 65535 0)[2]? =
      some (if 65535 > 0 then
          ⟨(2 * 255 + 0) / 3, (2 * 255 + 0) / 3, (2 * 255 + 0) / 3, 255⟩
        else ⟨(255 + 0) / 2, (255 + 0) / 2, (255 + 0) / 2, 255⟩) ∧
    (wDxt1Palette 65535 0)[3]? =
      some (if 65535 > 0 then
          ⟨(255 + 2 * 0) / 3, (255 + 2 * 0) / 3, (255 + 2 * 0) / 3, 255⟩
        else ⟨0, 0, 0, 0⟩) ∧
    wDxtColorPalette 65535 0 =
      [(255, 255, 255), (0, 0, 0),
       ((2 * 255 + 0) / 3, (2 * 255 + 0) / 3, (2 * 255 + 0) / 3),
       ((255 + 2 * 0) / 3, (255 + 2 * 0) / 3, (255 + 2 * 0) / 3)] :=
  claim_C6_dxt1_palette_selection 65535 0 255 255 255 0 0 0
    (by decide) (by decide) (by decide) (by decide) (by decide) (by decide)

/-! ## Claim C7: the DXT5 alpha codebook -/

/-- C7: the 8-entry DXT5 alpha codebook of `_decompress_dxt5_block` is
`a0, a1` followed by the 5-step interpolants plus `0, 255` when `a0 <= a1`,
and by the 7-step interpolants when `a0 > a1`; `(codes[6], codes[7]) =
(0, 255)` exactly when `a0 <= a1`. -/
theorem claim_C7_dxt5_alpha_codebook (a0 a1 : Nat) :
    wAlphaPalette a0 a1 =
      (if a0 ≤ a1 then
        [a0, a1, (4 * a0 + a1) / 5, (3 * a0 + 2 * a1) / 5, (2 * a0 + 3 * a1) / 5,
         (a0 + 4 * a1) / 5, 0, 255]
      else
        [a0, a1, (6 * a0 + a1) / 7, (5 * a0 + 2 * a1) / 7, (4 * a0 + 3 * a1) / 7,
         (3 * a0 + 4 * a1) / 7, (2 * a0 + 5 * a1) / 7, (a0 + 6 * a1) / 7]) ∧
    (((wAlphaPalette a0 a1)[6]? = some 0 ∧ (wAlphaPalette a0 a1)[7]? = some 255) ↔
      a0 ≤ a1) := by
  constructor
  · by_cases h : a0 ≤ a1
    · simp [wAlphaPalette, Nat.not_lt.mpr h, h, List.range_succ]
    · simp only [wAlphaPalette, if_pos (Nat.lt_of_not_le h), if_neg h, List.range_succ]
      simp
  · by_cases h : a0 ≤ a1
    · simp [wAlphaPalette, Nat.not_lt.mpr h, h, List.range_succ]
    · have hgt : a1 < a0 := Nat.lt_of_not_le h
      simp only [wAlphaPalette, if_pos hgt, List.range_succ]
      simp only [List.map_append, List.map_cons, List.map_nil]
      constructor
      · rintro ⟨h6, h7⟩
        simp at h6 h7
        omega
      · intro hle
        omega

example : wAlphaPalette 3 7 = [3, 7, (4 * 3 + 7) / 5, (3 * 3 + 14) / 5, (6 + 21) / 5,
    (3 + 28) / 5, 0, 255] := by decide

/-! ## Claim C2: RGB565 channel expansion -/

/-- C2 counterexample: decoding, with `decompress_image` of
`src/wextractor/DXT.py`, the DXT1 block whose endpoint `c0` has 5-bit red
field 4 (packed value `0x2000`) yields red byte `4 * 255 // 31 = 32`, whereas
bit replication `(4 << 3) | (4 >> 2)` yields 33: the expansion used by this
decoder is not bit replication. -/
theorem claim_C2_counterexample :
    wDecompressImage 4 4 [0, 32, 0, 0, 0, 0, 0, 0] .DXT1 =
      .ok (List.replicate 16 [32, 0, 0]).flatten ∧
    ((4 <<< 3) ||| (4 >>> 2) = 33) ∧ (32 : Nat) ≠ 33 :=
  ⟨by rfl, by decide, by decide⟩

/-- C2 amended: `unpack565` of the legacy `src/DXT.py` expands each 5-bit
channel as `(v << 3) | (v >> 2)` and the 6-bit channel as `(v << 2) | (v >> 4)`
(bit replication), while `src/wextractor/DXT.py` expands with `v * 255 // 31`
(5-bit) and `v * 255 // 63` (6-bit), which differs from bit replication
(e.g. `v = 4`: 32 vs 33). -/
theorem claim_C2_amended :
    (∀ (block : List Nat) (blockIndex packedOffset colourOffset : Nat)
      (colour : Nat → Nat) (res : (Nat → Nat) × Nat),
      sUnpack565 block blockIndex packedOffset colour colourOffset = .ok res →
      res.1 (0 + colourOffset) =
        ((((res.2 >>> 11) &&& 0x1F) <<< 3) ||| (((res.2 >>> 11) &&& 0x1F) >>> 2)) ∧
      res.1 (1 + colourOffset) =
        ((((res.2 >>> 5) &&& 0x3F) <<< 2) ||| (((res.2 >>> 5) &&& 0x3F) >>> 4)) ∧
      res.1 (2 + colourOffset) =
        (((res.2 &&& 0x1F) <<< 3) ||| ((res.2 &&& 0x1F) >>> 2))) ∧
    (∀ color0 color1 : Nat,
      (wDxt1Palette color0 color1)[0]? =
        some ⟨((color0 >>> 11) &&& 31) * 255 / 31, ((color0 >>> 5) &&& 63) * 255 / 63,
          (color0 &&& 31) * 255 / 31, 255⟩) ∧
    4 * 255 / 31 ≠ (4 <<< 3) ||| (4 >>> 2) := by
  refine ⟨?_, ?_, by decide⟩
  · intro block blockIndex packedOffset colourOffset colour res h
    simp only [sUnpack565, pyAt] at h
    cases h1 : block[blockIndex + packedOffset]? with
    | none => rw [h1] at h; simp [except_bind_error, except_map_error] at h
    | some lo =>
      cases h2 : block[blockIndex + 1 + packedOffset]? with
      | none => rw [h1, h2] at h; simp [except_bind_ok, except_bind_error,
          except_map_error] at h
      | some hi =>
        rw [h1, h2] at h
        simp only [except_bind_ok, except_map_ok, except_pure, Except.ok.injEq] at h
        subst h
        refine ⟨?_, ?_, ?_⟩ <;> simp [updN, Nat.add_right_cancel_iff]
  · intro color0 color1
    simp [wDxt1Palette]

/-- Witness for the amended C2: `unpack565` applied to the two-byte block
`[0, 32]` (packed value 8192, red field 4) writes the bit-replicated red 33. -/
theorem claim_C2_amended_witness :
    (updN (updN (updN (updN (fun _ => (0 : Nat)) 0 33) 1 0) 2 0) 3 255) (0 + 0) =
      ((((8192 >>> 11) &&& 0x1F) <<< 3) ||| (((8192 >>> 11) &&& 0x1F) >>> 2)) ∧
    (updN (updN (updN (updN (fun _ => (0 : Nat)) 0 33) 1 0) 2 0) 3 255) (1 + 0) =
      ((((8192 >>> 5) &&& 0x3F) <<< 2) ||| (((8192 >>> 5) &&& 0x3F) >>> 4)) ∧
    (updN (updN (updN (updN (fun _ => (0 : Nat)) 0 33) 1 0) 2 0) 3 255) (2 + 0) =
      (((8192 &&& 0x1F) <<< 3) ||| ((8192 &&& 0x1F) >>> 2)) :=
  claim_C2_amended.1 [0, 32] 0 0 0 (fun _ => 0)
    (updN (updN (updN (updN (fun _ => (0 : Nat)) 0 33) 1 0) 2 0) 3 255, 8192) rfl

/-! ## Success and size machinery for `decompress_image` (wextractor) -/

theorem PixBuf.set_ok (pb : PixBuf) (y x c v : Nat)
    (hy : y < pb.height) (hx : x < pb.width) (hc : c < pb.channels) :
    ∃ pb', pb.set y x c v = .ok pb' ∧
      pb'.height = pb.height ∧ pb'.width = pb.width ∧ pb'.channels = pb.channels := by
  unfold PixBuf.set
  rw [if_pos ⟨hy, hx, hc⟩]
  exact ⟨_, rfl, rfl, rfl, rfl⟩

theorem mem_pairs44 {p : Nat × Nat} (hp : p ∈ pairs44) : p.1 < 4 ∧ p.2 < 4 := by
  simp only [pairs44, List.mem_flatMap, List.mem_map, List.mem_range] at hp
  obtain ⟨i, hi, j, hj, rfl⟩ := hp
  exact ⟨hi, hj⟩

theorem wColorIndices_length (i0 i1 i2 i3 : Nat) :
    (wColorIndices i0 i1 i2 i3).length = 16 := rfl

theorem wColorIndices_mem_lt {i0 i1 i2 i3 v : Nat}
    (hv : v ∈ wColorIndices i0 i1 i2 i3) : v < 4 := by
  simp only [wColorIndices, List.mem_flatMap, List.mem_map, List.mem_range] at hv
  obtain ⟨byte, _, j, _, rfl⟩ := hv
  exact Nat.lt_succ_of_le (Nat.and_le_right)

theorem wDxt1Palette_length (color0 color1 : Nat) :
    (wDxt1Palette color0 color1).length = 4 := by
  by_cases h : color0 > color1 <;> simp [wDxt1Palette, h]

theorem wDxtColorPalette_length (color0 color1 : Nat) :
    (wDxtColorPalette color0 color1).length = 4 := rfl

theorem wAlphaPalette_length (alpha0 alpha1 : Nat) :
    (wAlphaPalette alpha0 alpha1).length = 8 := by
  by_cases h : alpha0 > alpha1 <;> simp [wAlphaPalette, h]

theorem wDxt5AlphaIndices_aux_lt (bl : List Nat) (l : List Nat)
    (st : Nat × Nat × List Nat) (h : ∀ v ∈ st.2.2, v < 8) :
    ∀ v ∈ (l.foldl (fun (st : Nat × Nat × List Nat) i =>
      let (bits, currentByte, acc) := st
      let (bits, currentByte) :=
        if bits < 3 then
          (bits + 8, currentByte ||| (bl.getD (2 + (i * 3) / 8) 0 <<< bits))
        else (bits, currentByte)
      (bits - 3, currentByte >>> 3, acc ++ [currentByte &&& 0x7])) st).2.2, v < 8 := by
  induction l generalizing st with
  | nil => exact h
  | cons a t ih =>
    rw [List.foldl_cons]
    refine ih _ ?_
    rcases st with ⟨bits, currentByte, acc⟩
    by_cases hb : bits < 3 <;>
      · simp only [hb, if_true, if_false, List.mem_append, List.mem_singleton]
        intro v hv
        rcases hv with hv | rfl
        · exact h v hv
        · exact Nat.lt_succ_of_le (Nat.and_le_right)

theorem wDxt5AlphaIndices_mem_lt {bl : List Nat} {v : Nat}
    (hv : v ∈ wDxt5AlphaIndices bl) : v < 8 := by
  exact wDxt5AlphaIndices_aux_lt bl (List.range 16) (0, 0, []) (by simp) v hv

theorem wDxt5AlphaIndices_aux_length (bl : List Nat) (l : List Nat)
    (st : Nat × Nat × List Nat) :
    (l.foldl (fun (st : Nat × Nat × List Nat) i =>
      let (bits, currentByte, acc) := st
      let (bits, currentByte) :=
        if bits < 3 then
          (bits + 8, currentByte ||| (bl.getD (2 + (i * 3) / 8) 0 <<< bits))
        else (bits, currentByte)
      (bits - 3, currentByte >>> 3, acc ++ [currentByte &&& 0x7])) st).2.2.length =
      st.2.2.length + l.length := by
  induction l generalizing st with
  | nil => simp
  | cons a t ih =>
    rw [List.foldl_cons, ih]
    rcases st with ⟨bits, currentByte, acc⟩
    by_cases hb : bits < 3 <;> simp [hb] <;> omega

theorem wDxt5AlphaIndices_length (bl : List Nat) :
    (wDxt5AlphaIndices bl).length = 16 := by
  unfold wDxt5AlphaIndices
  rw [wDxt5AlphaIndices_aux_length]
  rfl

theorem wDxt3Alphas_length_8 (b0 b1 b2 b3 b4 b5 b6 b7 : Nat) :
    (wDxt3Alphas [b0, b1, b2, b3, b4, b5, b6, b7]).length = 16 := rfl

set_option maxHeartbeats 800000 in
theorem wDxt1Block_ok (bd : List Nat) (pb : PixBuf) (x y w h : Nat)
    (hbd : 8 ≤ bd.length) (hh : pb.height = h) (hw : pb.width = w)
    (hc : 3 ≤ pb.channels) :
    ∃ pb', wDxt1Block bd pb x y w h = .ok pb' ∧
      pb'.height = h ∧ pb'.width = w ∧ pb'.channels = pb.channels := by
  unfold wDxt1Block
  simp only [pyAt_ok bd 0 (by omega), pyAt_ok bd 1 (by omega), pyAt_ok bd 2 (by omega),
    pyAt_ok bd 3 (by omega), pyAt_ok bd 4 (by omega), pyAt_ok bd 5 (by omega),
    pyAt_ok bd 6 (by omega), pyAt_ok bd 7 (by omega), except_bind_ok]
  set pal := wDxt1Palette (bd[0] ||| bd[1] <<< 8) (bd[2] ||| bd[3] <<< 8) with hpal
  set ind := wColorIndices bd[4] bd[5] bd[6] bd[7] with hind
  have hindlen : ind.length = 16 := by rw [hind, wColorIndices_length]
  have hpallen : pal.length = 4 := by rw [hpal]; exact wDxt1Palette_length _ _
  have hindlt : ∀ v ∈ ind, v < 4 := by rw [hind]; exact fun v hv => wColorIndices_mem_lt hv
  refine Exists.imp (fun pb' hx => ⟨hx.1, hx.2.1, hx.2.2.1, hx.2.2.2⟩)
    (foldlM_pres
      (fun q : PixBuf => q.height = h ∧ q.width = w ∧ q.channels = pb.channels)
      pairs44 _ pb ⟨hh, hw, rfl⟩ ?_)
  intro p hp st hst
  obtain ⟨hi4, hj4⟩ := mem_pairs44 hp
  rcases p with ⟨i, j⟩
  dsimp only at hi4 hj4 ⊢
  by_cases hg : y + i < h ∧ x + j < w
  · rw [if_pos hg]
    have hidx : i * 4 + j < ind.length := by omega
    simp only [pyAt_ok ind (i * 4 + j) hidx, except_bind_ok]
    have hcol : ind[i * 4 + j] < pal.length := by
      rw [hpallen]; exact hindlt _ (List.getElem_mem hidx)
    simp only [pyAt_ok pal _ hcol, except_bind_ok]
    obtain ⟨pb1, hs1, hh1, hw1, hc1⟩ := PixBuf.set_ok st (y + i) (x + j) 0 _
      (by rw [hst.1]; exact hg.1) (by rw [hst.2.1]; exact hg.2)
      (by rw [hst.2.2]; omega)
    rw [hs1]
    simp only [except_bind_ok]
    obtain ⟨pb2, hs2, hh2, hw2, hc2⟩ := PixBuf.set_ok pb1 (y + i) (x + j) 1 _
      (by rw [hh1, hst.1]; exact hg.1) (by rw [hw1, hst.2.1]; exact hg.2)
      (by rw [hc1, hst.2.2]; omega)
    rw [hs2]
    simp only [except_bind_ok]
    obtain ⟨pb3, hs3, hh3, hw3, hc3⟩ := PixBuf.set_ok pb2 (y + i) (x + j) 2 _
      (by rw [hh2, hh1, hst.1]; exact hg.1) (by rw [hw2, hw1, hst.2.1]; exact hg.2)
      (by rw [hc2, hc1, hst.2.2]; omega)
    rw [hs3]
    simp only [except_bind_ok]
    have hdims3 : pb3.height = h ∧ pb3.width = w ∧ pb3.channels = pb.channels :=
      ⟨by rw [hh3, hh2, hh1, hst.1], by rw [hw3, hw2, hw1, hst.2.1],
       by rw [hc3, hc2, hc1, hst.2.2]⟩
    by_cases hch : 3 < pb3.channels
    · rw [if_pos hch]
      obtain ⟨pb4, hs4, hh4, hw4, hc4⟩ := PixBuf.set_ok pb3 (y + i) (x + j) 3 _
        (by rw [hdims3.1]; exact hg.1) (by rw [hdims3.2.1]; exact hg.2) hch
      rw [hs4]
      exact ⟨pb4, rfl, by rw [hh4, hdims3.1], by rw [hw4, hdims3.2.1],
        by rw [hc4, hdims3.2.2]⟩
    · rw [if_neg hch]
      exact ⟨pb3, rfl, hdims3⟩
  · rw [if_neg hg]
    exact ⟨st, rfl, hst⟩

set_option maxHeartbeats 800000 in
theorem wDxt3Block_ok (bd : List Nat) (pb : PixBuf) (x y w h : Nat)
    (hbd : 16 ≤ bd.length) (hh : pb.height = h) (hw : pb.width = w)
    (hc : 4 ≤ pb.channels) :
    ∃ pb', wDxt3Block bd pb x y w h = .ok pb' ∧
      pb'.height = h ∧ pb'.width = w ∧ pb'.channels = pb.channels := by
  unfold wDxt3Block
  simp only [pyAt_ok bd 0 (by omega), pyAt_ok bd 1 (by omega), pyAt_ok bd 2 (by omega),
    pyAt_ok bd 3 (by omega), pyAt_ok bd 4 (by omega), pyAt_ok bd 5 (by omega),
    pyAt_ok bd 6 (by omega), pyAt_ok bd 7 (by omega), pyAt_ok bd 8 (by omega),
    pyAt_ok bd 9 (by omega), pyAt_ok bd 10 (by omega), pyAt_ok bd 11 (by omega),
    pyAt_ok bd 12 (by omega), pyAt_ok bd 13 (by omega), pyAt_ok bd 14 (by omega),
    pyAt_ok bd 15 (by omega), except_bind_ok]
  set al := wDxt3Alphas [bd[0], bd[1], bd[2], bd[3], bd[4], bd[5], bd[6], bd[7]] with hal
  set pal := wDxtColorPalette (bd[8] ||| bd[9] <<< 8) (bd[10] ||| bd[11] <<< 8) with hpal
  set ind := wColorIndices bd[12] bd[13] bd[14] bd[15] with hind
  have hallen : al.length = 16 := by rw [hal, wDxt3Alphas_length_8]
  have hindlen : ind.length = 16 := by rw [hind, wColorIndices_length]
  have hpallen : pal.length = 4 := by rw [hpal, wDxtColorPalette_length]
  have hindlt : ∀ v ∈ ind, v < 4 := by rw [hind]; exact fun v hv => wColorIndices_mem_lt hv
  refine Exists.imp (fun pb' hx => ⟨hx.1, hx.2.1, hx.2.2.1, hx.2.2.2⟩)
    (foldlM_pres
      (fun q : PixBuf => q.height = h ∧ q.width = w ∧ q.channels = pb.channels)
      pairs44 _ pb ⟨hh, hw, rfl⟩ ?_)
  intro p hp st hst
  obtain ⟨hi4, hj4⟩ := mem_pairs44 hp
  rcases p with ⟨i, j⟩
  dsimp only at hi4 hj4 ⊢
  by_cases hg : y + i < h ∧ x + j < w
  · rw [if_pos hg]
    have hidx : i * 4 + j < ind.length := by omega
    simp only [pyAt_ok ind (i * 4 + j) hidx, except_bind_ok]
    have hcol : ind[i * 4 + j] < pal.length := by
      rw [hpallen]; exact hindlt _ (List.getElem_mem hidx)
    simp only [pyAt_ok pal _ hcol, except_bind_ok]
    have hali : i * 4 + j < al.length := by omega
    simp only [pyAt_ok al _ hali, except_bind_ok]
    obtain ⟨pb1, hs1, hh1, hw1, hc1⟩ := PixBuf.set_ok st (y + i) (x + j) 0 _
      (by rw [hst.1]; exact hg.1) (by rw [hst.2.1]; exact hg.2)
      (by rw [hst.2.2]; omega)
    rw [hs1]
    simp only [except_bind_ok]
    obtain ⟨pb2, hs2, hh2, hw2, hc2⟩ := PixBuf.set_ok pb1 (y + i) (x + j) 1 _
      (by rw [hh1, hst.1]; exact hg.1) (by rw [hw1, hst.2.1]; exact hg.2)
      (by rw [hc1, hst.2.2]; omega)
    rw [hs2]
    simp only [except_bind_ok]
    obtain ⟨pb3, hs3, hh3, hw3, hc3⟩ := PixBuf.set_ok pb2 (y + i) (x + j) 2 _
      (by rw [hh2, hh1, hst.1]; exact hg.1) (by rw [hw2, hw1, hst.2.1]; exact hg.2)
      (by rw [hc2, hc1, hst.2.2]; omega)
    rw [hs3]
    simp only [except_bind_ok]
    obtain ⟨pb4, hs4, hh4, hw4, hc4⟩ := PixBuf.set_ok pb3 (y + i) (x + j) 3 _
      (by rw [hh3, hh2, hh1, hst.1]; exact hg.1)
      (by rw [hw3, hw2, hw1, hst.2.1]; exact hg.2)
      (by rw [hc3, hc2, hc1, hst.2.2]; omega)
    rw [hs4]
    exact ⟨pb4, rfl, by rw [hh4, hh3, hh2, hh1, hst.1],
      by rw [hw4, hw3, hw2, hw1, hst.2.1], by rw [hc4, hc3, hc2, hc1, hst.2.2]⟩
  · rw [if_neg hg]
    exact ⟨st, rfl, hst⟩

set_option maxHeartbeats 800000 in
theorem wDxt5Block_ok (bd : List Nat) (pb : PixBuf) (x y w h : Nat)
    (hbd : 16 ≤ bd.length) (hh : pb.height = h) (hw : pb.width = w)
    (hc : 4 ≤ pb.channels) :
    ∃ pb', wDxt5Block bd pb x y w h = .ok pb' ∧
      pb'.height = h ∧ pb'.width = w ∧ pb'.channels = pb.channels := by
  unfold wDxt5Block
  simp only [pyAt_ok bd 0 (by omega), pyAt_ok bd 1 (by omega), pyAt_ok bd 2 (by omega),
    pyAt_ok bd 3 (by omega), pyAt_ok bd 4 (by omega), pyAt_ok bd 5 (by omega),
    pyAt_ok bd 6 (by omega), pyAt_ok bd 7 (by omega), pyAt_ok bd 8 (by omega),
    pyAt_ok bd 9 (by omega), pyAt_ok bd 10 (by omega), pyAt_ok bd 11 (by omega),
    pyAt_ok bd 12 (by omega), pyAt_ok bd 13 (by omega), pyAt_ok bd 14 (by omega),
    pyAt_ok bd 15 (by omega), except_bind_ok]
  generalize hapal : wAlphaPalette bd[0] bd[1] = apal
  generalize haind : wDxt5AlphaIndices
    [bd[0], bd[1], bd[2], bd[3], bd[4], bd[5], bd[6], bd[7],
     bd[8], bd[9], bd[10], bd[11], bd[12], bd[13], bd[14], bd[15]] = aind
  generalize hpal : wDxtColorPalette (bd[8] ||| bd[9] <<< 8) (bd[10] ||| bd[11] <<< 8) = pal
  generalize hind : wColorIndices bd[12] bd[13] bd[14] bd[15] = ind
  have hapallen : apal.length = 8 := by rw [← hapal]; exact wAlphaPalette_length _ _
  have haindlen : aind.length = 16 := by rw [← haind, wDxt5AlphaIndices_length]
  have haindlt : ∀ v ∈ aind, v < 8 := by
    rw [← haind]; exact fun v hv => wDxt5AlphaIndices_mem_lt hv
  have hindlen : ind.length = 16 := by rw [← hind, wColorIndices_length]
  have hpallen : pal.length = 4 := by rw [← hpal, wDxtColorPalette_length]
  have hindlt : ∀ v ∈ ind, v < 4 := by
    rw [← hind]; exact fun v hv => wColorIndices_mem_lt hv
  refine Exists.imp (fun pb' hx => ⟨hx.1, hx.2.1, hx.2.2.1, hx.2.2.2⟩)
    (foldlM_pres
      (fun q : PixBuf => q.height = h ∧ q.width = w ∧ q.channels = pb.channels)
      pairs44 _ pb ⟨hh, hw, rfl⟩ ?_)
  intro p hp st hst
  obtain ⟨hi4, hj4⟩ := mem_pairs44 hp
  rcases p with ⟨i, j⟩
  dsimp only at hi4 hj4 ⊢
  by_cases hg : y + i < h ∧ x + j < w
  · rw [if_pos hg]
    have hidx : i * 4 + j < ind.length := by omega
    simp only [pyAt_ok ind (i * 4 + j) hidx, except_bind_ok]
    have haidx : i * 4 + j < aind.length := by omega
    simp only [pyAt_ok aind (i * 4 + j) haidx, except_bind_ok]
    have hcol : ind[i * 4 + j] < pal.length := by
      rw [hpallen]; exact hindlt _ (List.getElem_mem hidx)
    simp only [pyAt_ok pal _ hcol, except_bind_ok]
    have halp : aind[i * 4 + j] < apal.length := by
      rw [hapallen]; exact haindlt _ (List.getElem_mem haidx)
    simp only [pyAt_ok apal _ halp, except_bind_ok]
    obtain ⟨pb1, hs1, hh1, hw1, hc1⟩ := PixBuf.set_ok st (y + i) (x + j) 0 _
      (by rw [hst.1]; exact hg.1) (by rw [hst.2.1]; exact hg.2)
      (by rw [hst.2.2]; omega)
    rw [hs1]
    simp only [except_bind_ok]
    obtain ⟨pb2, hs2, hh2, hw2, hc2⟩ := PixBuf.set_ok pb1 (y + i) (x + j) 1 _
      (by rw [hh1, hst.1]; exact hg.1) (by rw [hw1, hst.2.1]; exact hg.2)
      (by rw [hc1, hst.2.2]; omega)
    rw [hs2]
    simp only [except_bind_ok]
    obtain ⟨pb3, hs3, hh3, hw3, hc3⟩ := PixBuf.set_ok pb2 (y + i) (x + j) 2 _
      (by rw [hh2, hh1, hst.1]; exact hg.1) (by rw [hw2, hw1, hst.2.1]; exact hg.2)
      (by rw [hc2, hc1, hst.2.2]; omega)
    rw [hs3]
    simp only [except_bind_ok]
    obtain ⟨pb4, hs4, hh4, hw4, hc4⟩ := PixBuf.set_ok pb3 (y + i) (x + j) 3 _
      (by rw [hh3, hh2, hh1, hst.1]; exact hg.1)
      (by rw [hw3, hw2, hw1, hst.2.1]; exact hg.2)
      (by rw [hc3, hc2, hc1, hst.2.2]; omega)
    rw [hs4]
    exact ⟨pb4, rfl, by rw [hh4, hh3, hh2, hh1, hst.1],
      by rw [hw4, hw3, hw2, hw1, hst.2.1], by rw [hc4, hc3, hc2, hc1, hst.2.2]⟩
  · rw [if_neg hg]
    exact ⟨st, rfl, hst⟩

theorem PixBuf.tobytes_length (pb : PixBuf) :
    pb.tobytes.length = pb.height * (pb.width * pb.channels) := by
  simp [PixBuf.tobytes, List.length_flatMap, Function.comp_def,
    List.map_const', List.sum_replicate, smul_eq_mul]

/-- `decompress_image` succeeds whenever the input covers the full tile grid,
and the output has `width*height*channels` bytes (3 channels for DXT1,
4 for DXT3/DXT5). -/
theorem wDecompressImage_ok (ft : DXTFlags) (w h : Nat) (data : List Nat)
    (hlen : ((w + 3) / 4) * ((h + 3) / 4) *
      (match ft with | .DXT1 => 8 | .DXT3 => 16 | .DXT5 => 16) ≤ data.length) :
    ∃ out, wDecompressImage w h data ft = .ok out ∧
      out.length = w * h * (match ft with | .DXT1 => 3 | .DXT3 => 4 | .DXT5 => 4) := by
  have key : ∀ (bs ch : Nat)
    (blk : List Nat → PixBuf → Nat → Nat → Nat → Nat → Except String PixBuf),
    ((w + 3) / 4) * ((h + 3) / 4) * bs ≤ data.length →
    (∀ bd pb x y, bs ≤ bd.length → pb.height = h → pb.width = w →
      pb.channels = ch →
      ∃ pb', blk bd pb x y w h = .ok pb' ∧
        pb'.height = h ∧ pb'.width = w ∧ pb'.channels = pb.channels) →
    ∃ fin : PixBuf,
      (List.range ((h + 3) / 4)).foldlM (fun pixels by_ =>
        (List.range ((w + 3) / 4)).foldlM (fun pixels bx =>
          blk ((data.drop ((by_ * ((w + 3) / 4) + bx) * bs)).take bs) pixels
            (bx * 4) (by_ * 4) w h) pixels)
        ⟨h, w, ch, fun _ _ _ => 0⟩ = .ok fin ∧
      fin.height = h ∧ fin.width = w ∧ fin.channels = ch := by
    intro bs ch blk hsz hblk
    refine foldlM_pres
      (fun q : PixBuf => q.height = h ∧ q.width = w ∧ q.channels = ch)
      _ _ _ ⟨rfl, rfl, rfl⟩ ?_
    intro by_ hby st hst
    rw [List.mem_range] at hby
    refine foldlM_pres
      (fun q : PixBuf => q.height = h ∧ q.width = w ∧ q.channels = ch)
      _ _ _ hst ?_
    intro bx hbx st2 hst2
    rw [List.mem_range] at hbx
    have hoff : ((by_ * ((w + 3) / 4) + bx) + 1) * bs ≤
        ((w + 3) / 4) * ((h + 3) / 4) * bs := by
      have h1 : by_ * ((w + 3) / 4) + bx + 1 ≤ ((w + 3) / 4) * ((h + 3) / 4) := by
        have h2 : by_ * ((w + 3) / 4) ≤ (((h + 3) / 4) - 1) * ((w + 3) / 4) :=
          Nat.mul_le_mul_right _ (by omega)
        have h3 : (((h + 3) / 4) - 1) * ((w + 3) / 4) + ((w + 3) / 4) =
            ((h + 3) / 4) * ((w + 3) / 4) := by
          rw [Nat.sub_one_mul]
          have : ((w + 3) / 4) ≤ ((h + 3) / 4) * ((w + 3) / 4) :=
            Nat.le_mul_of_pos_left _ (by omega)
          omega
        rw [Nat.mul_comm (((w + 3) / 4)) (((h + 3) / 4))]
        omega
      calc ((by_ * ((w + 3) / 4) + bx) + 1) * bs
          ≤ (((w + 3) / 4) * ((h + 3) / 4)) * bs := Nat.mul_le_mul_right _ h1
        _ = ((w + 3) / 4) * ((h + 3) / 4) * bs := rfl
    have hslice : bs ≤ ((data.drop ((by_ * ((w + 3) / 4) + bx) * bs)).take bs).length := by
      rw [List.length_take, List.length_drop]
      have : ((by_ * ((w + 3) / 4) + bx)) * bs + bs ≤ data.length := by
        have := Nat.le_trans hoff hsz
        calc (by_ * ((w + 3) / 4) + bx) * bs + bs
            = ((by_ * ((w + 3) / 4) + bx) + 1) * bs := by ring
          _ ≤ data.length := this
      omega
    obtain ⟨pb', hok, hh', hw', hc'⟩ := hblk _ st2 (bx * 4) (by_ * 4) hslice
      hst2.1 hst2.2.1 hst2.2.2
    exact ⟨pb', hok, hh', hw', by rw [hc', hst2.2.2]⟩
  cases ft with
  | DXT1 =>
    have hnl : ¬ data.length < ((w + 3) / 4) * ((h + 3) / 4) * 8 := by
      simpa using hlen
    obtain ⟨fin, hfold, hhh, hww, hcc⟩ := key 8 3
      (fun bd pb x y w h => wDxt1Block bd pb x y w h) hlen
      (fun bd pb x y h8 hph hpw hpc =>
        wDxt1Block_ok bd pb x y w h h8 hph hpw (by omega))
    refine ⟨fin.tobytes, ?_, ?_⟩
    · unfold wDecompressImage
      rw [if_neg hnl]
      simp only [except_bind_ok, Bool.false_eq_true, if_false, if_true]
      rw [hfold]
      rfl
    · rw [PixBuf.tobytes_length, hhh, hww, hcc]
      ring
  | DXT3 =>
    have hnl : ¬ data.length < ((w + 3) / 4) * ((h + 3) / 4) * 16 := by
      simpa using hlen
    obtain ⟨fin, hfold, hhh, hww, hcc⟩ := key 16 4
      (fun bd pb x y w h => wDxt3Block bd pb x y w h) hlen
      (fun bd pb x y h16 hph hpw hpc =>
        wDxt3Block_ok bd pb x y w h h16 hph hpw (by omega))
    refine ⟨fin.tobytes, ?_, ?_⟩
    · unfold wDecompressImage
      rw [if_neg hnl]
      simp only [except_bind_ok, Bool.false_eq_true, if_false, if_true]
      rw [hfold]
      rfl
    · rw [PixBuf.tobytes_length, hhh, hww, hcc]
      ring
  | DXT5 =>
    have hnl : ¬ data.length < ((w + 3) / 4) * ((h + 3) / 4) * 16 := by
      simpa using hlen
    obtain ⟨fin, hfold, hhh, hww, hcc⟩ := key 16 4
      (fun bd pb x y w h => wDxt5Block bd pb x y w h) hlen
      (fun bd pb x y h16 hph hpw hpc =>
        wDxt5Block_ok bd pb x y w h h16 hph hpw (by omega))
    refine ⟨fin.tobytes, ?_, ?_⟩
    · unfold wDecompressImage
      rw [if_neg hnl]
      simp only [except_bind_ok, Bool.false_eq_true, if_false, if_true]
      rw [hfold]
      rfl
    · rw [PixBuf.tobytes_length, hhh, hww, hcc]
      ring

/-! ## Claim C1: output buffer size and the zero-block scenario -/

/-- C1 counterexample: for the 4x4 DXT1 image made of one all-zero 8-byte
block, `decompress_image` of `src/wextractor/DXT.py` returns a 48-byte RGB
buffer, not a `width*height*4 = 64`-byte RGBA buffer (the DXT1 path drops
the alpha channel). -/
theorem claim_C1_counterexample :
    (wDecompressImage 4 4 (List.replicate 8 0) .DXT1).map List.length = .ok 48 ∧
    (48 : Nat) ≠ 4 * 4 * 4 :=
  ⟨by rfl, by decide⟩

/-- C1 amended: `decompress_image` returns a `width*height*4`-byte RGBA8888
buffer for DXT3 and DXT5, but a `width*height*3`-byte RGB888 buffer for DXT1
(alpha dropped); the 4x4 DXT1 image whose single 8-byte block is all zeros
decodes to 16 RGB pixels each equal to `(0,0,0)` (the in-array pixels are
`(0,0,0,255)`, but the DXT1 output slice keeps only RGB). -/
theorem claim_C1_amended :
    (∀ w h data, ((w + 3) / 4) * ((h + 3) / 4) * 16 ≤ List.length data →
      ∃ out, wDecompressImage w h data .DXT3 = .ok out ∧ out.length = w * h * 4) ∧
    (∀ w h data, ((w + 3) / 4) * ((h + 3) / 4) * 16 ≤ List.length data →
      ∃ out, wDecompressImage w h data .DXT5 = .ok out ∧ out.length = w * h * 4) ∧
    (∀ w h data, ((w + 3) / 4) * ((h + 3) / 4) * 8 ≤ List.length data →
      ∃ out, wDecompressImage w h data .DXT1 = .ok out ∧ out.length = w * h * 3) ∧
    wDecompressImage 4 4 (List.replicate 8 0) .DXT1 =
      .ok (List.replicate 16 [0, 0, 0]).flatten := by
  refine ⟨fun w h data hl => wDecompressImage_ok .DXT3 w h data hl,
    fun w h data hl => wDecompressImage_ok .DXT5 w h data hl,
    fun w h data hl => wDecompressImage_ok .DXT1 w h data hl, by rfl⟩

/-- Witness for the amended C1 at concrete inputs: a 4x4 DXT3 image with 16
zero bytes yields a 64-byte buffer, and the 4x4 zero DXT1 block a 48-byte
buffer. -/
theorem claim_C1_amended_witness :
    (∃ out, wDecompressImage 4 4 (List.replicate 16 0) .DXT3 = .ok out ∧
      out.length = 4 * 4 * 4) ∧
    (∃ out, wDecompressImage 4 4 (List.replicate 8 0) .DXT1 = .ok out ∧
      out.length = 4 * 4 * 3) :=
  ⟨claim_C1_amended.1 4 4 (List.replicate 16 0) (by decide),
   claim_C1_amended.2.2.1 4 4 (List.replicate 8 0) (by decide)⟩

/-! ## Claim C10: edge clipping -/

/-- C10: for every variant and all dimensions — multiples of 4 or not — once
the input covers the tile grid, `decompress_image` succeeds: in this
embedding every pixel write goes through the bounds-checked `PixBuf.set`
guarded by `y+i < height ∧ x+j < width`, so success means no decoded tile
pixel is ever written outside `[0,width) × [0,height)`; out-of-range tile
pixels are skipped, and the returned buffer enumerates exactly the in-range
coordinates (`width*height*channels` bytes). -/
theorem claim_C10_edge_clipping (ft : DXTFlags) (w h : Nat) (data : List Nat)
    (hlen : ((w + 3) / 4) * ((h + 3) / 4) *
      (match ft with | .DXT1 => 8 | .DXT3 => 16 | .DXT5 => 16) ≤ data.length) :
    ∃ out, wDecompressImage w h data ft = .ok out ∧
      out.length = w * h * (match ft with | .DXT1 => 3 | .DXT3 => 4 | .DXT5 => 4) :=
  wDecompressImage_ok ft w h data hlen

/-- Witness for C10 at a width and height that are not multiples of 4:
a 5x3 DXT1 image (two tiles, 16 bytes). -/
theorem claim_C10_edge_clipping_witness :
    ∃ out, wDecompressImage 5 3 (List.replicate 16 0) .DXT1 = .ok out ∧
      out.length = 5 * 3 * 3 :=
  claim_C10_edge_clipping .DXT1 5 3 (List.replicate 16 0) (by decide)

/-! ## Success and zero-fill machinery for `decompressImage` (`src/DXT.py`) -/

theorem foldlM_pres_ex {σ α : Type} (P : σ → Prop)
    (l : List α) (f : σ → α → Except String σ) (init : σ)
    (h0 : P init)
    (hstep : ∀ a, a ∈ l → ∀ st, P st → ∃ st', f st a = .ok st' ∧ P st') :
    ∃ fin, l.foldlM f init = .ok fin := by
  obtain ⟨fin, h1, -⟩ := foldlM_pres P l f init h0 hstep
  exact ⟨fin, h1⟩

theorem foldlM_pres_bind {σ α β : Type} (P : σ → Prop) (R : β → Prop)
    (l : List α) (f : σ → α → Except String σ) (init : σ) (g : σ → Except String β)
    (h0 : P init)
    (hstep : ∀ a, a ∈ l → ∀ st, P st → ∃ st', f st a = .ok st' ∧ P st')
    (hg : ∀ st, P st → ∃ b, g st = .ok b ∧ R b) :
    ∃ b, (l.foldlM f init >>= g) = .ok b ∧ R b := by
  obtain ⟨fin, h1, h2⟩ := foldlM_pres P l f init h0 hstep
  obtain ⟨b, hb, hR⟩ := hg fin h2
  exact ⟨b, by rw [h1, except_bind_ok, hb], hR⟩

theorem foldlM_inv_bind {σ α β : Type} (Q : Nat → σ → Prop) (R : β → Prop)
    (l : List α) (f : σ → α → Except String σ) (init : σ) (g : σ → Except String β)
    (h0 : Q 0 init)
    (hstep : ∀ i (hi : i < l.length) st, Q i st →
      ∃ st', f st l[i] = .ok st' ∧ Q (i + 1) st')
    (hg : ∀ st, Q l.length st → ∃ b, g st = .ok b ∧ R b) :
    ∃ b, (l.foldlM f init >>= g) = .ok b ∧ R b := by
  obtain ⟨fin, h1, h2⟩ := foldlM_invariant Q l f init h0 hstep
  obtain ⟨b, hb, hR⟩ := hg fin h2
  exact ⟨b, by rw [h1, except_bind_ok, hb], hR⟩

theorem sUnpack565_ok (block : List Nat) (bi po : Nat) (colour : Nat → Nat)
    (co : Nat) (h : bi + 1 + po < block.length) :
    ∃ res, sUnpack565 block bi po colour co = .ok res := by
  unfold sUnpack565
  simp only [pyAt_ok block (bi + po) (by omega), pyAt_ok block (bi + 1 + po) h,
    except_bind_ok, except_pure]
  exact ⟨_, rfl⟩

theorem sDecompressColor_ok (rgba : Nat → Nat) (block : List Nat) (bi : Nat)
    (isDxt1 : Bool) (h : bi + 7 ≤ block.length) :
    ∃ r, sDecompressColor rgba block bi isDxt1 = .ok r := by
  unfold sDecompressColor
  dsimp only
  obtain ⟨res1, hres1⟩ := sUnpack565_ok block bi 0 (fun _ => 0) 0 (by omega)
  rw [hres1]
  simp only [except_bind_ok]
  rcases res1 with ⟨codes1, a⟩
  dsimp only
  obtain ⟨res2, hres2⟩ := sUnpack565_ok block bi 2 codes1 4 (by omega)
  rw [hres2]
  simp only [except_bind_ok]
  rcases res2 with ⟨codes2, b⟩
  dsimp only
  refine Exists.imp (fun r hr => hr.1)
    (foldlM_pres_bind (fun _ : (Nat → Nat) × (Nat → Nat) => True) (fun _ => True)
      (List.range 3) _ (codes2, rgba) _ trivial ?_ ?_)
  · intro i hi st htriv
    rw [List.mem_range] at hi
    rcases st with ⟨codes, rgba2⟩
    dsimp only
    refine foldlM_pres_bind (fun _ : Nat → Nat => True) (fun _ => True)
      (List.range 3) _ (fun _ => 0) _ trivial ?_ ?_
    · intro i2 hi2 ind2 htriv2
      rw [List.mem_range] at hi2
      simp only [pyAt_ok block (bi + 4 + i2) (by omega), except_bind_ok, except_pure]
      exact ⟨_, rfl, trivial⟩
    · intro ind htriv2
      exact ⟨_, rfl, trivial⟩
  · intro st htriv
    exact ⟨st.2, rfl, trivial⟩

theorem sDecompressAlphaDxt3_ok (rgba : Nat → Nat) (block : List Nat) (bi : Nat)
    (h : bi + 8 ≤ block.length) :
    ∃ r, sDecompressAlphaDxt3 rgba block bi = .ok r := by
  unfold sDecompressAlphaDxt3
  refine foldlM_pres_ex (fun _ : Nat → Nat => True) (List.range 8) _ rgba trivial ?_
  intro i hi st htriv
  rw [List.mem_range] at hi
  simp only [pyAt_ok block (bi + i) (by omega), except_bind_ok, except_pure]
  exact ⟨_, rfl, trivial⟩

theorem sDecompressAlphaDxt5_ok (rgba : Nat → Nat) (block : List Nat) (bi : Nat)
    (h : bi + 8 ≤ block.length) :
    ∃ r, sDecompressAlphaDxt5 rgba block bi = .ok r := by
  unfold sDecompressAlphaDxt5
  simp only [pyAt_ok block (bi + 0) (by omega), pyAt_ok block (bi + 1) (by omega),
    except_bind_ok]
  refine Exists.imp (fun r hr => hr.1)
    (foldlM_inv_bind
      (fun i (st : (Nat → Nat) × Nat × Nat) => st.2.1 = 2 + 3 * i) (fun _ => True)
      (List.range 2) _ ((fun _ => 0), 2, 0) _ rfl ?_ ?_)
  · intro i hi st hst
    rw [List.length_range] at hi
    rcases st with ⟨ind, bsp, ipos⟩
    dsimp only at hst ⊢
    subst hst
    refine foldlM_inv_bind (fun j (vp : Nat × Nat) => vp.2 = 2 + 3 * i + j)
      (fun b : (Nat → Nat) × Nat × Nat => b.2.1 = 2 + 3 * (i + 1))
      (List.range 3) _ ((0 : Nat), 2 + 3 * i) _ rfl ?_ ?_
    · intro j hj vp hvp
      rw [List.length_range] at hj
      rcases vp with ⟨value, pos⟩
      dsimp only at hvp ⊢
      subst hvp
      simp only [pyAt_ok block (bi + (2 + 3 * i + j)) (by omega), except_bind_ok,
        except_pure]
      exact ⟨_, rfl, rfl⟩
    · intro vp hvp
      rcases vp with ⟨value, pos⟩
      dsimp only at hvp ⊢
      refine ⟨_, rfl, ?_⟩
      dsimp only
      rw [List.length_range] at hvp
      omega
  · intro st hst
    exact ⟨_, rfl, trivial⟩

theorem sDecompress_ok (rgba : Nat → Nat) (block : List Nat) (bi flags : Nat)
    (hf : flags = 1 ∨ flags = 2 ∨ flags = 4)
    (h : bi + (if flags &&& sDXT1 ≠ 0 then 8 else 16) ≤ block.length) :
    ∃ r, sDecompress rgba block bi flags = .ok r := by
  unfold sDecompress
  rcases hf with rfl | rfl | rfl
  · rw [if_neg (by decide : ¬((1 &&& (sDXT3 ||| sDXT5) : Nat) ≠ 0))]
    rw [if_pos (by decide : ((1 &&& sDXT1 : Nat) ≠ 0))] at h
    dsimp only
    obtain ⟨r, hr⟩ := sDecompressColor_ok rgba block bi (1 &&& sDXT1 ≠ 0) (by omega)
    rw [hr]
    simp only [except_bind_ok]
    rw [if_neg (by decide : ¬((1 &&& sDXT3 : Nat) ≠ 0)),
      if_neg (by decide : ¬((1 &&& sDXT5 : Nat) ≠ 0))]
    exact ⟨r, rfl⟩
  · rw [if_pos (by decide : ((2 &&& (sDXT3 ||| sDXT5) : Nat) ≠ 0))]
    rw [if_neg (by decide : ¬((2 &&& sDXT1 : Nat) ≠ 0))] at h
    dsimp only
    obtain ⟨r, hr⟩ := sDecompressColor_ok rgba block (bi + 8) (2 &&& sDXT1 ≠ 0) (by omega)
    rw [hr]
    simp only [except_bind_ok]
    rw [if_pos (by decide : ((2 &&& sDXT3 : Nat) ≠ 0))]
    exact sDecompressAlphaDxt3_ok r block bi (by omega)
  · rw [if_pos (by decide : ((4 &&& (sDXT3 ||| sDXT5) : Nat) ≠ 0))]
    rw [if_neg (by decide : ¬((4 &&& sDXT1 : Nat) ≠ 0))] at h
    dsimp only
    obtain ⟨r, hr⟩ := sDecompressColor_ok rgba block (bi + 8) (4 &&& sDXT1 ≠ 0) (by omega)
    rw [hr]
    simp only [except_bind_ok]
    rw [if_neg (by decide : ¬((4 &&& sDXT3 : Nat) ≠ 0)),
      if_pos (by decide : ((4 &&& sDXT5 : Nat) ≠ 0))]
    exact sDecompressAlphaDxt5_ok r block bi (by omega)

theorem sWriteTile_aux (tgt : Nat → Nat) (x y w h t : Nat) :
    ∀ (l : List (Nat × Nat)) (rgba : Nat → Nat),
      (∀ p ∈ l, ∀ c, c < 4 → x + p.2 < w → y + p.1 < h →
        t ≠ 4 * (w * (y + p.1) + (x + p.2)) + c) →
      (l.foldl (fun rgba (p : Nat × Nat) =>
        let (py, px) := p
        let sx := x + px
        let sy := y + py
        if sx < w ∧ sy < h then
          let targetPixel := 4 * (w * sy + sx)
          let tpos := 4 * (4 * py + px)
          let rgba := updN rgba (targetPixel + 0) (tgt (tpos + 0))
          let rgba := updN rgba (targetPixel + 1) (tgt (tpos + 1))
          let rgba := updN rgba (targetPixel + 2) (tgt (tpos + 2))
          updN rgba (targetPixel + 3) (tgt (tpos + 3))
        else rgba) rgba) t = rgba t := by
  intro l
  induction l with
  | nil => intro rgba hyp; rfl
  | cons p tail ih =>
    intro rgba hyp
    rw [List.foldl_cons]
    rw [ih _ (fun q hq => hyp q (List.mem_cons_of_mem _ hq))]
    rcases p with ⟨py, px⟩
    dsimp only
    by_cases hg : x + px < w ∧ y + py < h
    · rw [if_pos hg]
      have hne : ∀ c, c < 4 → t ≠ 4 * (w * (y + py) + (x + px)) + c := fun c hc =>
        hyp (py, px) (List.mem_cons_self _ _) c hc hg.1 hg.2
      rw [updN_ne _ _ _ _ (hne 3 (by omega)), updN_ne _ _ _ _ (hne 2 (by omega)),
        updN_ne _ _ _ _ (hne 1 (by omega)), updN_ne _ _ _ _ (hne 0 (by omega))]
    · rw [if_neg hg]

theorem sWriteTile_unchanged (rgba tgt : Nat → Nat) (x y w h t : Nat)
    (hyp : ∀ p ∈ pairs44, ∀ c, c < 4 → x + p.2 < w → y + p.1 < h →
      t ≠ 4 * (w * (y + p.1) + (x + p.2)) + c) :
    sWriteTile rgba tgt x y w h t = rgba t := by
  unfold sWriteTile
  exact sWriteTile_aux tgt x y w h t pairs44 rgba hyp

theorem pixIndex_inj (w sy sx sy2 sx2 c c2 : Nat) (hsx : sx < w) (hsx2 : sx2 < w)
    (hc : c < 4) (hc2 : c2 < 4)
    (heq : 4 * (w * sy + sx) + c = 4 * (w * sy2 + sx2) + c2) :
    sy = sy2 ∧ sx = sx2 ∧ c = c2 := by
  have hAB : w * sy + sx = w * sy2 + sx2 := by omega
  have hcc : c = c2 := by omega
  have hw : 0 < w := by omega
  have d1 : (w * sy + sx) / w = sy := by
    rw [Nat.mul_add_div hw, Nat.div_eq_of_lt hsx]; omega
  have d2 : (w * sy2 + sx2) / w = sy2 := by
    rw [Nat.mul_add_div hw, Nat.div_eq_of_lt hsx2]; omega
  have hsy : sy = sy2 := by rw [← d1, ← d2, hAB]
  have hsxx : sx = sx2 := by rw [hsy] at hAB; omega
  exact ⟨hsy, hsxx, hcc⟩

theorem div4_of_add (i p : Nat) (hp : p < 4) : (4 * i + p) / 4 = i := by
  rw [Nat.mul_add_div (by omega), Nat.div_eq_of_lt hp]; omega

theorem range4_length (n : Nat) : (range4 n).length = (n + 3) / 4 := by
  simp [range4]

theorem range4_getElem (n i : Nat) (hi : i < (range4 n).length) :
    (range4 n)[i] = 4 * i := by
  simp [range4]

set_option maxHeartbeats 800000 in
/-- `decompressImage` of `src/DXT.py`: when the input is a whole number `k` of
blocks covering fewer than all tiles, decoding succeeds and every pixel of a
tile at iteration index `>= k` is left zero. -/
theorem sDecompressImage_zero_fill (flags : Nat) (hf : flags = 1 ∨ flags = 2 ∨ flags = 4)
    (w h k : Nat) (data : List Nat)
    (hlen : data.length = k * (if flags &&& sDXT1 ≠ 0 then 8 else 16))
    (hk : k < ((h + 3) / 4) * ((w + 3) / 4)) :
    ∃ out, sDecompressImage w h data flags = .ok out ∧
      out.length = w * h * 4 ∧
      ∀ sx sy c, sx < w → sy < h → c < 4 →
        k ≤ (sy / 4) * ((w + 3) / 4) + sx / 4 →
        out[4 * (w * sy + sx) + c]? = some 0 := by
  unfold sDecompressImage
  dsimp only
  set bpb := (if flags &&& sDXT1 ≠ 0 then 8 else 16 : Nat) with hbpb
  have hbpb_pos : 0 < bpb := by rw [hbpb]; split <;> omega
  refine foldlM_inv_bind
    (fun r (st : (Nat → Nat) × (Nat → Nat) × Nat) =>
      st.2.2 = bpb * min (r * ((w + 3) / 4)) k ∧
      ∀ sx sy c, sx < w → sy < h → c < 4 →
        min (r * ((w + 3) / 4)) k ≤ (sy / 4) * ((w + 3) / 4) + sx / 4 →
        st.1 (4 * (w * sy + sx) + c) = 0)
    (fun out : List Nat => out.length = w * h * 4 ∧
      ∀ sx sy c, sx < w → sy < h → c < 4 →
        k ≤ (sy / 4) * ((w + 3) / 4) + sx / 4 →
        out[4 * (w * sy + sx) + c]? = some 0)
    (range4 h) _ ((fun _ => 0), (fun _ => 0), 0) _
    ⟨by simp, fun _ _ _ _ _ _ _ => rfl⟩ ?_ ?_
  · -- outer row step
    intro i hi st hQ
    rw [range4_length] at hi
    simp only [range4_getElem]
    refine Exists.imp (fun fin hfin => ⟨hfin.1, ?_⟩)
      (foldlM_invariant
        (fun j (st : (Nat → Nat) × (Nat → Nat) × Nat) =>
          st.2.2 = bpb * min (i * ((w + 3) / 4) + j) k ∧
          ∀ sx sy c, sx < w → sy < h → c < 4 →
            min (i * ((w + 3) / 4) + j) k ≤ (sy / 4) * ((w + 3) / 4) + sx / 4 →
            st.1 (4 * (w * sy + sx) + c) = 0)
        (range4 w) _ st ?_ ?_)
    · -- convert the inner conclusion into the outer invariant at row i+1
      have hc := hfin.2
      rw [range4_length] at hc
      rw [Nat.succ_mul]
      exact hc
    · exact hQ
    · -- inner column step: one tile
      intro j hj st2 hst2
      rw [range4_length] at hj
      simp only [range4_getElem]
      rcases st2 with ⟨rgba, tgt, pos⟩
      obtain ⟨hpos, hzero⟩ := hst2
      dsimp only at hpos hzero ⊢
      set m := i * ((w + 3) / 4) + j with hm
      have hmtot : m < ((h + 3) / 4) * ((w + 3) / 4) := by
        have h1 : i * ((w + 3) / 4) ≤ (((h + 3) / 4) - 1) * ((w + 3) / 4) :=
          Nat.mul_le_mul_right _ (by omega)
        have h2 : (((h + 3) / 4) - 1) * ((w + 3) / 4) + ((w + 3) / 4) =
            ((h + 3) / 4) * ((w + 3) / 4) := by
          rw [Nat.sub_one_mul]
          have : ((w + 3) / 4) ≤ ((h + 3) / 4) * ((w + 3) / 4) :=
            Nat.le_mul_of_pos_left _ (by omega)
          omega
        omega
      have hstep1 : i * ((w + 3) / 4) + (j + 1) = m + 1 := by omega
      by_cases hdl : data.length = pos
      · rw [if_pos hdl]
        have hkm : k ≤ m := by
          by_contra hlt
          push_neg at hlt
          have hminm : min m k = m := by omega
          rw [hminm] at hpos
          have h8 : bpb = 8 ∨ bpb = 16 := by rw [hbpb]; split <;> simp
          rcases h8 with h8 | h8 <;> rw [h8] at hpos hlen <;> omega
        have he : min (m + 1) k = min m k := by omega
        exact ⟨(rgba, tgt, pos), rfl, by rw [hstep1, he]; exact ⟨hpos, hzero⟩⟩
      · rw [if_neg hdl]
        have hmk : m < k := by
          by_contra hge
          push_neg at hge
          have hminm : min m k = k := by omega
          rw [hminm] at hpos
          have h2 : k * bpb = bpb * k := Nat.mul_comm _ _
          omega
        have hminm : min m k = m := by omega
        rw [hminm] at hpos hzero
        obtain ⟨tgt2, htgt2⟩ := sDecompress_ok tgt data pos flags hf (by
          rw [← hbpb]
          have e1 : bpb * m + bpb = bpb * (m + 1) := by ring
          have e2 : bpb * (m + 1) ≤ bpb * k := Nat.mul_le_mul_left _ (by omega)
          have e3 : k * bpb = bpb * k := Nat.mul_comm _ _
          omega)
        rw [htgt2]
        simp only [except_bind_ok, except_pure]
        refine ⟨_, rfl, ?_, ?_⟩
        · dsimp only
          rw [hstep1]
          have hmin1 : min (m + 1) k = m + 1 := by omega
          rw [hmin1, hpos]
          ring
        · intro sx sy c hsx hsy hc htile
          rw [hstep1] at htile
          have hmin1 : min (m + 1) k = m + 1 := by omega
          rw [hmin1] at htile
          dsimp only
          have hyp : ∀ p ∈ pairs44, ∀ c2, c2 < 4 → 4 * j + p.2 < w →
              4 * i + p.1 < h →
              4 * (w * sy + sx) + c ≠ 4 * (w * (4 * i + p.1) + (4 * j + p.2)) + c2 := by
            intro p hp c2 hc2 hpx hpy heq
            obtain ⟨e1, e2, e3⟩ := pixIndex_inj w sy sx (4 * i + p.1) (4 * j + p.2)
              c c2 hsx hpx hc hc2 heq
            have ht1 : sy / 4 = i := by rw [e1]; exact div4_of_add i p.1 (mem_pairs44 hp).1
            have ht2 : sx / 4 = j := by rw [e2]; exact div4_of_add j p.2 (mem_pairs44 hp).2
            rw [ht1, ht2] at htile
            omega
          rw [sWriteTile_unchanged rgba tgt2 (4 * j) (4 * i) w h
            (4 * (w * sy + sx) + c) hyp]
          exact hzero sx sy c hsx hsy hc (by omega)
  · -- final continuation: the flattened buffer
    intro st hQf
    rw [range4_length] at hQf
    rcases st with ⟨rgba, tgt, pos⟩
    obtain ⟨hpos, hzero⟩ := hQf
    dsimp only at hzero
    refine ⟨_, rfl, ?_, ?_⟩
    · simp
    · intro sx sy c hsx hsy hc htile
      have hminT : min (((h + 3) / 4) * ((w + 3) / 4)) k = k := by omega
      rw [hminT] at hzero
      have hidx : 4 * (w * sy + sx) + c < w * h * 4 := by
        have h1 : w * sy ≤ w * (h - 1) := Nat.mul_le_mul_left _ (by omega)
        have h2 : w * (h - 1) + w = w * h := by
          have h3 : h - 1 + 1 = h := by omega
          calc w * (h - 1) + w = w * ((h - 1) + 1) := (Nat.mul_succ _ _).symm
            _ = w * h := by rw [h3]
        omega
      rw [List.getElem?_map, List.getElem?_range hidx]
      simp only [Option.map_some']
      rw [hzero sx sy c hsx hsy hc htile]

/-! ## Claim C3: short input -/

/-- C3 counterexample: an input of 4 bytes for a 4x4 DXT1 image (one 8-byte
tile) is smaller than the tile grid, yet neither decoder succeeds with the
remaining tile zeroed: `decompress_image` of `src/wextractor/DXT.py` raises a
data-size error, and `decompressImage` of `src/DXT.py` raises an index error
on this input. -/
theorem claim_C3_counterexample :
    wDecompressImage 4 4 (List.replicate 4 0) .DXT1 =
      .error "ValueError: Data size mismatch" ∧
    sDecompressImage 4 4 (List.replicate 4 0) sDXT1 = .error "IndexError" :=
  ⟨rfl, rfl⟩

/-- C3 amended: `decompress_image` of `src/wextractor/DXT.py` raises a
data-size error on every input shorter than the tile grid; the legacy
`decompressImage` of `src/DXT.py` succeeds whenever the input is a whole
number `k` of blocks (`k` less than the tile count) and then leaves every
byte of every tile at row-major tile index `>= k` zero; other short inputs
are not guaranteed either way: on a 4x4 DXT1 grid a 4-byte input raises an
index error while a 7-byte input decodes successfully (the decoder never
reads a DXT1 colour block's fourth index byte). -/
theorem claim_C3_amended :
    (∀ (ft : DXTFlags) (w h : Nat) (data : List Nat),
      data.length < ((w + 3) / 4) * ((h + 3) / 4) *
        (match ft with | .DXT1 => 8 | .DXT3 => 16 | .DXT5 => 16) →
      wDecompressImage w h data ft = .error "ValueError: Data size mismatch") ∧
    (∀ (flags : Nat), (flags = 1 ∨ flags = 2 ∨ flags = 4) →
      ∀ (w h k : Nat) (data : List Nat),
      data.length = k * (if flags &&& sDXT1 ≠ 0 then 8 else 16) →
      k < ((h + 3) / 4) * ((w + 3) / 4) →
      ∃ out, sDecompressImage w h data flags = .ok out ∧
        out.length = w * h * 4 ∧
        ∀ sx sy c, sx < w → sy < h → c < 4 →
          k ≤ (sy / 4) * ((w + 3) / 4) + sx / 4 →
          out[4 * (w * sy + sx) + c]? = some 0) ∧
    sDecompressImage 4 4 (List.replicate 4 0) sDXT1 = .error "IndexError" ∧
    (∃ out, sDecompressImage 4 4 (List.replicate 7 0) sDXT1 = .ok out) := by
  refine ⟨?_, ?_, rfl, ⟨_, rfl⟩⟩
  · intro ft w h data hlt
    unfold wDecompressImage
    cases ft <;>
      · dsimp only
        split
        · rfl
        · next hcond => exact absurd hlt hcond
  · exact fun flags hf w h k data hlen hk =>
      sDecompressImage_zero_fill flags hf w h k data hlen hk

/-- Witness for the amended C3: a 4x4 DXT1 image with an empty input errors
in the wextractor decoder, and an 8x8 DXT1 image (4 tiles) with exactly one
8-byte block decodes in the legacy decoder with the other three tiles zero. -/
theorem claim_C3_amended_witness :
    wDecompressImage 4 4 [] .DXT1 = .error "ValueError: Data size mismatch" ∧
    (∃ out, sDecompressImage 8 8 (List.replicate 8 0) 1 = .ok out ∧
      out.length = 8 * 8 * 4 ∧
      ∀ sx sy c, sx < 8 → sy < 8 → c < 4 →
        1 ≤ (sy / 4) * ((8 + 3) / 4) + sx / 4 →
        out[4 * (8 * sy + sx) + c]? = some 0) :=
  ⟨claim_C3_amended.1 .DXT1 4 4 [] (by decide),
   claim_C3_amended.2.1 1 (Or.inl rfl) 8 8 1 (List.replicate 8 0) (by decide) (by decide)⟩

/-! ## `src/wextractor/enums.py` and `src/wextractor/decompress.py` -/

/-- `MipmapFormat` of `src/wextractor/enums.py` (auto values; the `Image*`
members restart at 1000). -/
inductive MipmapFormat where
  | Invalid
  | RGBA8888
  | R8
  | RG88
  | CompressedDXT5
  | CompressedDXT3
  | CompressedDXT1
  | VideoMP4
  | ImageBMP
  | ImageICO
  | ImageJPEG
  | ImageJNG
  | ImageKOALA
  | ImageLBM
  | ImageIFF
  | ImageMNG
  | ImagePBM
  | ImagePBMRAW
  | ImagePCD
  | ImagePCX
  | ImagePGM
  | ImagePGMRAW
  | ImagePNG
  | ImagePPM
  | ImagePPMRAW
  | ImageRAS
  | ImageTARGA
  | ImageTIFF
  | ImageWBMP
  | ImagePSD
  | ImageCUT
  | ImageXBM
  | ImageXPM
  | ImageDDS
  | ImageGIF
  | ImageHDR
  | ImageFAXG3
  | ImageSGI
  | ImageEXR
  | ImageJ2K
  | ImageJP2
  | ImagePFM
  | ImagePICT
  | ImageRAW
  deriving DecidableEq, Repr

/-- The numeric `value` of each `MipmapFormat` member. -/
def MipmapFormat.value : MipmapFormat → Nat
  | .Invalid => 0
  | .RGBA8888 => 1
  | .R8 => 2
  | .RG88 => 3
  | .CompressedDXT5 => 4
  | .CompressedDXT3 => 5
  | .CompressedDXT1 => 6
  | .VideoMP4 => 7
  | .ImageBMP => 1000
  | .ImageICO => 1001
  | .ImageJPEG => 1002
  | .ImageJNG => 1003
  | .ImageKOALA => 1004
  | .ImageLBM => 1005
  | .ImageIFF => 1006
  | .ImageMNG => 1007
  | .ImagePBM => 1008
  | .ImagePBMRAW => 1009
  | .ImagePCD => 1010
  | .ImagePCX => 1011
  | .ImagePGM => 1012
  | .ImagePGMRAW => 1013
  | .ImagePNG => 1014
  | .ImagePPM => 1015
  | .ImagePPMRAW => 1016
  | .ImageRAS => 1017
  | .ImageTARGA => 1018
  | .ImageTIFF => 1019
  | .ImageWBMP => 1020
  | .ImagePSD => 1021
  | .ImageCUT => 1022
  | .ImageXBM => 1023
  | .ImageXPM => 1024
  | .ImageDDS => 1025
  | .ImageGIF => 1026
  | .ImageHDR => 1027
  | .ImageFAXG3 => 1028
  | .ImageSGI => 1029
  | .ImageEXR => 1030
  | .ImageJ2K => 1031
  | .ImageJP2 => 1032
  | .ImagePFM => 1033
  | .ImagePICT => 1034
  | .ImageRAW => 1035

/-- `MipmapFormat.is_image(self, mipmap_format)`: true when the argument's
value is at least `ImageBMP`'s (1000); `self` is unused by the source beyond
naming the class constant. -/
def MipmapFormat.is_image (_self mf : MipmapFormat) : Bool :=
  1000 ≤ mf.value

/-- `TexMipmap` of `src/wextractor/textures.py` (the fields used by the
decompression pipeline; integer fields are i32 values). -/
structure TexMipmap where
  data : List Nat
  width : Int
  height : Int
  is_lz4_compressed : Bool
  decompressed_bytes_count : Int
  format : MipmapFormat
  deriving Repr

/-- `lz4decompress` of `src/wextractor/decompress.py`: calls the external
byte-stream decompressor (modelled as the oracle `lz4`) and raises
`DecompressionError` when the output length differs from the declared
count. -/
def lz4decompress (lz4 : List Nat → Int → List Nat) (data : List Nat)
    (decompressedBytesCount : Int) : Except String (List Nat) :=
  let decompressed := lz4 data decompressedBytesCount
  if (decompressed.length : Int) ≠ decompressedBytesCount then
    .error "DecompressionError"
  else
    .ok decompressed

/-- Lines 16-18 of `decompress_mipmap`: when flagged, replace the payload with
the decompressed bytes and clear the flag. -/
def lz4Stage (lz4 : List Nat → Int → List Nat) (m : TexMipmap) :
    Except String TexMipmap :=
  if m.is_lz4_compressed then do
    let d ← lz4decompress lz4 m.data m.decompressed_bytes_count
    pure { m with data := d, is_lz4_compressed := false }
  else
    pure m

/-- `decompress_mipmap` of `src/wextractor/decompress.py` (negative widths
never occur in practice; `toNat` maps the i32 sizes into the decoder). -/
def decompress_mipmap (lz4 : List Nat → Int → List Nat) (m : TexMipmap) :
    Except String TexMipmap := do
  let m ← lz4Stage lz4 m
  if m.format.is_image m.format then
    pure m
  else
    match m.format with
    | .CompressedDXT5 => do
        let d ← wDecompressImage m.width.toNat m.height.toNat m.data .DXT5
        pure { m with data := d, format := .RGBA8888 }
    | .CompressedDXT3 => do
        let d ← wDecompressImage m.width.toNat m.height.toNat m.data .DXT3
        pure { m with data := d, format := .RGBA8888 }
    | .CompressedDXT1 => do
        let d ← wDecompressImage m.width.toNat m.height.toNat m.data .DXT1
        pure { m with data := d, format := .RGBA8888 }
    | _ => pure m

example : decompress_mipmap (fun _ _ => List.replicate 99 0)
    ⟨[], 0, 0, true, 100, .Invalid⟩ = .error "DecompressionError" := by rfl

example : decompress_mipmap (fun _ _ => [])
    ⟨List.replicate 8 0, 4, 4, false, 0, .CompressedDXT1⟩ =
    .ok ⟨(List.replicate 16 [0, 0, 0]).flatten, 4, 4, false, 0, .RGBA8888⟩ := by rfl

/-! ## Claim C8: LZ4 size mismatch -/

/-- C8: for a mipmap flagged LZ4-compressed, a decompressor output whose
length differs from the declared count makes `decompress_mipmap` fail with
`DecompressionError`; on success the LZ4 stage replaces the payload with the
decompressed bytes and clears the flag. -/
theorem claim_C8_lz4_size_mismatch :
    ∀ (lz4 : List Nat → Int → List Nat) (m : TexMipmap),
      m.is_lz4_compressed = true →
      (((lz4 m.data m.decompressed_bytes_count).length : Int) ≠
          m.decompressed_bytes_count →
        decompress_mipmap lz4 m = .error "DecompressionError") ∧
      (((lz4 m.data m.decompressed_bytes_count).length : Int) =
          m.decompressed_bytes_count →
        lz4Stage lz4 m =
          .ok { m with data := lz4 m.data m.decompressed_bytes_count,
                       is_lz4_compressed := false }) := by
  intro lz4 m hflag
  constructor
  · intro hne
    unfold decompress_mipmap lz4Stage lz4decompress
    rw [hflag]
    rw [if_pos rfl, if_pos hne]
    rfl
  · intro heq
    unfold lz4Stage lz4decompress
    rw [hflag]
    rw [if_pos rfl, if_neg (by simp [heq])]
    rfl

/-- Witness for C8: a declared count of 100 with a 99-byte decompressor
output raises, and an exact 100-byte output clears the flag. -/
theorem claim_C8_lz4_size_mismatch_witness :
    decompress_mipmap (fun _ _ => List.replicate 99 0) ⟨[], 0, 0, true, 100, .Invalid⟩ =
      .error "DecompressionError" ∧
    lz4Stage (fun _ _ => List.replicate 100 0) ⟨[], 0, 0, true, 100, .Invalid⟩ =
      .ok ⟨List.replicate 100 0, 0, 0, false, 100, .Invalid⟩ :=
  ⟨(claim_C8_lz4_size_mismatch (fun _ _ => List.replicate 99 0)
      ⟨[], 0, 0, true, 100, .Invalid⟩ rfl).1 (by decide),
   (claim_C8_lz4_size_mismatch (fun _ _ => List.replicate 100 0)
      ⟨[], 0, 0, true, 100, .Invalid⟩ rfl).2 (by decide)⟩

/-! ## Claim C9: idempotence of the frame decompressor -/

theorem decompress_mipmap_noop (lz4 : List Nat → Int → List Nat) (q : TexMipmap)
    (hflag : q.is_lz4_compressed = false)
    (h5 : q.format ≠ .CompressedDXT5) (h3 : q.format ≠ .CompressedDXT3)
    (h1 : q.format ≠ .CompressedDXT1) :
    decompress_mipmap lz4 q = .ok q := by
  rcases q with ⟨data, w, h, flag, count, fmt⟩
  dsimp only at hflag h5 h3 h1
  subst hflag
  cases fmt <;> first
    | rfl
    | exact absurd rfl h5
    | exact absurd rfl h3
    | exact absurd rfl h1

theorem decompress_mipmap_result_aux (lz4 : List Nat → Int → List Nat)
    (data : List Nat) (w hh count : Int) (fmt : MipmapFormat) (m' : TexMipmap)
    (h : decompress_mipmap lz4 ⟨data, w, hh, false, count, fmt⟩ = .ok m') :
    m'.is_lz4_compressed = false ∧ m'.format ≠ .CompressedDXT5 ∧
      m'.format ≠ .CompressedDXT3 ∧ m'.format ≠ .CompressedDXT1 := by
  unfold decompress_mipmap lz4Stage at h
  dsimp only at h
  rw [if_neg (by simp)] at h
  simp only [except_pure, except_bind_ok] at h
  by_cases hi : MipmapFormat.is_image fmt fmt = true
  · rw [if_pos hi] at h
    simp only [except_pure, Except.ok.injEq] at h
    subst h
    refine ⟨rfl, ?_, ?_, ?_⟩ <;>
      · intro heq
        dsimp only at heq
        rw [heq] at hi
        exact absurd hi (by decide)
  · rw [if_neg hi] at h
    split at h
    · cases hw : wDecompressImage ((w : Int)).toNat ((hh : Int)).toNat data .DXT5 <;>
        rw [hw] at h
      · simp [except_bind_error] at h
      · simp only [except_bind_ok, except_pure, Except.ok.injEq] at h
        subst h
        exact ⟨rfl, by simp, by simp, by simp⟩
    · cases hw : wDecompressImage ((w : Int)).toNat ((hh : Int)).toNat data .DXT3 <;>
        rw [hw] at h
      · simp [except_bind_error] at h
      · simp only [except_bind_ok, except_pure, Except.ok.injEq] at h
        subst h
        exact ⟨rfl, by simp, by simp, by simp⟩
    · cases hw : wDecompressImage ((w : Int)).toNat ((hh : Int)).toNat data .DXT1 <;>
        rw [hw] at h
      · simp [except_bind_error] at h
      · simp only [except_bind_ok, except_pure, Except.ok.injEq] at h
        subst h
        exact ⟨rfl, by simp, by simp, by simp⟩
    · rename_i hne5 hne3 hne1
      simp only [except_pure, Except.ok.injEq] at h
      subst h
      exact ⟨rfl, fun he => hne5 he, fun he => hne3 he, fun he => hne1 he⟩

theorem decompress_mipmap_result (lz4 : List Nat → Int → List Nat)
    (m m' : TexMipmap) (h : decompress_mipmap lz4 m = .ok m') :
    m'.is_lz4_compressed = false ∧ m'.format ≠ .CompressedDXT5 ∧
      m'.format ≠ .CompressedDXT3 ∧ m'.format ≠ .CompressedDXT1 := by
  rcases m with ⟨data, w, hh, flag, count, fmt⟩
  cases flag
  · exact decompress_mipmap_result_aux lz4 data w hh count fmt m' h
  · unfold decompress_mipmap lz4Stage at h
    dsimp only at h
    rw [if_pos rfl] at h
    unfold lz4decompress at h
    dsimp only at h
    split at h
    · simp [except_bind_error] at h
    · simp only [except_bind_ok, except_pure] at h
      exact decompress_mipmap_result_aux lz4 (lz4 data count) w hh count fmt m' h

/-- C9: the frame decompressor is idempotent: any successful application
yields a mipmap on which a second application is a no-op. -/
theorem claim_C9_idempotent :
    ∀ (lz4 : List Nat → Int → List Nat) (m m' : TexMipmap),
      decompress_mipmap lz4 m = .ok m' → decompress_mipmap lz4 m' = .ok m' := by
  intro lz4 m m' h
  obtain ⟨hf, h5, h3, h1⟩ := decompress_mipmap_result lz4 m m' h
  exact decompress_mipmap_noop lz4 m' hf h5 h3 h1

/-- Witness for C9: one concrete already-uncompressed RGBA mipmap. -/
theorem claim_C9_idempotent_witness :
    decompress_mipmap (fun _ _ => []) ⟨[1, 2, 3, 4], 1, 1, false, 0, .RGBA8888⟩ =
      .ok ⟨[1, 2, 3, 4], 1, 1, false, 0, .RGBA8888⟩ :=
  claim_C9_idempotent (fun _ _ => []) ⟨[1, 2, 3, 4], 1, 1, false, 0, .RGBA8888⟩
    ⟨[1, 2, 3, 4], 1, 1, false, 0, .RGBA8888⟩ rfl

/-! ## `src/packages.py` -/

/-- An in-memory binary stream: Python file-object semantics (`read` returns
at most `n` bytes and advances by the number actually returned; `seek` moves
the cursor). -/
structure ByteStream where
  data : List Nat
  pos : Nat
  deriving Repr

/-- `fd.read(n)`. -/
def fdRead (fd : ByteStream) (n : Nat) : List Nat × ByteStream :=
  let r := (fd.data.drop fd.pos).take n
  (r, { fd with pos := fd.pos + r.length })

/-- `int.from_bytes(bs, "little", signed=False)`. -/
def leNat (bs : List Nat) : Nat :=
  bs.foldr (fun b acc => b + 256 * acc) 0

/-- The `File` dataclass of `src/packages.py` (names kept as raw bytes; the
source decodes them as UTF-8, which no claim depends on). -/
structure File where
  name : List Nat
  offset : Nat
  size : Nat
  deriving DecidableEq, Repr

/-- `PKGV0001._read_str`: a u32 length prefix followed by that many bytes. -/
def readStr (fd : ByteStream) : List Nat × ByteStream :=
  let (szb, fd) := fdRead fd 4
  fdRead fd (leNat szb)

/-- The ASCII bytes of `"PKGV0001"` (the class name the header version is
compared against). -/
def PKGV0001magic : List Nat := [80, 75, 71, 86, 48, 48, 48, 49]

/-- The state of a `PKGV0001` instance after `__init__`. -/
structure PKGState where
  fd : ByteStream
  filecount : Nat
  files : List File
  ds_ptr : Nat
  deriving Repr

/-- `PKGV0001.__init__` over an in-memory stream: `_prepare_file`
(`_read_header`: version string, u32 file count, version check) followed by
`_read_files` (per entry: name, u32 offset, u32 size, and `_ds_ptr` updated
to the cursor position inside the loop). -/
def PKGV0001_init (data : List Nat) : Except String PKGState :=
  let fd : ByteStream := ⟨data, 0⟩
  let (version, fd) := readStr fd
  let (fcb, fd) := fdRead fd 4
  let filecount := leNat fcb
  if version ≠ PKGV0001magic then
    .error "ValueError: File not compatible. File will be closed."
  else
    let st := (List.range filecount).foldl
      (fun (st : ByteStream × List File × Nat) _ =>
        let (fd, files, _) := st
        let (name, fd) := readStr fd
        let (offb, fd) := fdRead fd 4
        let (szb, fd) := fdRead fd 4
        (fd, files ++ [⟨name, leNat offb, leNat szb⟩], fd.pos))
      (fd, [], 0)
    .ok ⟨st.1, filecount, st.2.1, st.2.2⟩

/-- `PKGV0001.get_file`: seek to `_ds_ptr`, seek `file.offset` further, read
`file.size` bytes (a Python `read` returns fewer bytes when fewer remain). -/
def get_file (p : PKGState) (f : File) : List Nat × PKGState :=
  let fd := { p.fd with pos := p.ds_ptr }
  let fd := { fd with pos := fd.pos + f.offset }
  let (r, fd) := fdRead fd f.size
  (r, { p with fd := fd })

/-- The bytes of the concrete test package: a `PKGV0001` header, one entry
`("a", offset=0, size=10)`, and a 3-byte data segment. -/
def pkgBytesShort : List Nat :=
  [8, 0, 0, 0] ++ PKGV0001magic ++ [1, 0, 0, 0] ++
  [1, 0, 0, 0] ++ [97] ++ [0, 0, 0, 0] ++ [10, 0, 0, 0] ++ [1, 2, 3]

example : PKGV0001_init pkgBytesShort =
    .ok ⟨⟨pkgBytesShort, 29⟩, 1, [⟨[97], 0, 10⟩], 29⟩ := by rfl

/-! ## Claim C4: `get_file` and short reads -/

/-- C4 counterexample: a package whose single entry declares `size = 10` over
a 3-byte data segment: `get_file` returns the 3 available bytes with no
truncated-read error. -/
theorem claim_C4_counterexample :
    (PKGV0001_init pkgBytesShort).map
      (fun p => (get_file p ⟨[97], 0, 10⟩).1) = .ok [1, 2, 3] ∧
    (3 : Nat) ≠ 10 :=
  ⟨by rfl, by decide⟩

theorem pkg_fold_dsptr (l : List Nat) :
    ∀ (st : ByteStream × List File × Nat),
      (st.2.2 = st.1.pos ∨ l ≠ []) →
      ((l.foldl (fun (st : ByteStream × List File × Nat) _ =>
        let (fd, files, _) := st
        let (name, fd) := readStr fd
        let (offb, fd) := fdRead fd 4
        let (szb, fd) := fdRead fd 4
        (fd, files ++ [⟨name, leNat offb, leNat szb⟩], fd.pos)) st).2.2 =
       (l.foldl (fun (st : ByteStream × List File × Nat) _ =>
        let (fd, files, _) := st
        let (name, fd) := readStr fd
        let (offb, fd) := fdRead fd 4
        let (szb, fd) := fdRead fd 4
        (fd, files ++ [⟨name, leNat offb, leNat szb⟩], fd.pos)) st).1.pos) := by
  induction l with
  | nil =>
    intro st h
    rcases h with h | h
    · exact h
    · exact absurd rfl h
  | cons a t ih =>
    intro st h
    exact ih _ (Or.inl rfl)

/-- C4 amended: `get_file` seeks to `dataSegmentStart + entry.offset` and
returns the bytes available there up to `entry.size` (exactly
`min(size, remaining)` bytes); a short read returns fewer bytes silently,
with no truncated-read error.  When the table has at least one entry,
`dataSegmentStart` is the stream position immediately after the file
table. -/
theorem claim_C4_amended :
    (∀ (p : PKGState) (f : File),
      (get_file p f).1 = (p.fd.data.drop (p.ds_ptr + f.offset)).take f.size ∧
      (get_file p f).1.length =
        min f.size (p.fd.data.length - (p.ds_ptr + f.offset))) ∧
    (∀ (data : List Nat) (p : PKGState), PKGV0001_init data = .ok p →
      1 ≤ p.filecount → p.ds_ptr = p.fd.pos) := by
  constructor
  · intro p f
    refine ⟨rfl, ?_⟩
    show ((p.fd.data.drop (p.ds_ptr + f.offset)).take f.size).length = _
    simp [List.length_take, List.length_drop]
  · intro data p hinit hcount
    unfold PKGV0001_init at hinit
    dsimp only at hinit
    rcases hv : readStr ⟨data, 0⟩ with ⟨version, fd1⟩
    rw [hv] at hinit
    rcases hf : fdRead fd1 4 with ⟨fcb, fd2⟩
    rw [hf] at hinit
    dsimp only at hinit
    split at hinit
    · exact absurd hinit (by simp)
    · simp only [Except.ok.injEq] at hinit
      subst hinit
      dsimp only at hcount ⊢
      refine pkg_fold_dsptr _ _ (Or.inr ?_)
      intro hnil
      rw [List.range_eq_nil] at hnil
      omega

/-- Witness for the amended C4 on the concrete short package: the returned
bytes are the remaining 3 data bytes, and the parsed `_ds_ptr` (29) is the
stream position after the file table. -/
theorem claim_C4_amended_witness :
    (get_file ⟨⟨pkgBytesShort, 29⟩, 1, [⟨[97], 0, 10⟩], 29⟩ ⟨[97], 0, 10⟩).1 =
      ((pkgBytesShort.drop (29 + 0)).take 10) ∧
    (get_file ⟨⟨pkgBytesShort, 29⟩, 1, [⟨[97], 0, 10⟩], 29⟩ ⟨[97], 0, 10⟩).1.length =
      min 10 (pkgBytesShort.length - (29 + 0)) ∧
    (⟨⟨pkgBytesShort, 29⟩, 1, [⟨[97], 0, 10⟩], 29⟩ : PKGState).ds_ptr =
      (⟨⟨pkgBytesShort, 29⟩, 1, [⟨[97], 0, 10⟩], 29⟩ : PKGState).fd.pos :=
  ⟨(claim_C4_amended.1 ⟨⟨pkgBytesShort, 29⟩, 1, [⟨[97], 0, 10⟩], 29⟩ ⟨[97], 0, 10⟩).1,
   (claim_C4_amended.1 ⟨⟨pkgBytesShort, 29⟩, 1, [⟨[97], 0, 10⟩], 29⟩ ⟨[97], 0, 10⟩).2,
   claim_C4_amended.2 pkgBytesShort ⟨⟨pkgBytesShort, 29⟩, 1, [⟨[97], 0, 10⟩], 29⟩
     rfl (by decide)⟩

/-! ## `src/wextractor/extensions.py` and `src/wextractor/textures.py` -/

/-- `TexFormat` of `src/wextractor/enums.py`. -/
inductive TexFormat where
  | RGBA8888
  | DXT5
  | DXT3
  | DXT1
  | RG88
  | R8
  deriving DecidableEq, Repr

/-- The numeric value of each `TexFormat` member. -/
def TexFormat.value : TexFormat → Int
  | .RGBA8888 => 0
  | .DXT5 => 4
  | .DXT3 => 6
  | .DXT1 => 7
  | .RG88 => 8
  | .R8 => 9

/-- Python enum construction `TexFormat(v)`: the member with that value, or
`ValueError` (`none`) when no member has it. -/
def TexFormat.ofValue (v : Int) : Option TexFormat :=
  if v = 0 then some .RGBA8888
  else if v = 4 then some .DXT5
  else if v = 6 then some .DXT3
  else if v = 7 then some .DXT1
  else if v = 8 then some .RG88
  else if v = 9 then some .R8
  else none

/-- `TexImageContainerVersion` of `src/wextractor/enums.py`. -/
inductive TexImageContainerVersion where
  | Version1
  | Version2
  | Version3
  deriving DecidableEq, Repr

/-- `FreeImageFormat` members are represented by their integer value
(-1 = `FIF_UNKNOWN` up to 34 = `FIF_RAW`; construction succeeds exactly for
values in that range). -/
def FIF_UNKNOWN : Int := -1

/-- `is_valid_format` on a `TexFormat` (the source's match lists all six
members, so it holds for every member). -/
def isValidTexFormat : TexFormat → Bool
  | .RGBA8888 | .DXT5 | .DXT3 | .DXT1 | .RG88 | .R8 => true

/-- `is_valid_format` on a `FreeImageFormat` value: `-1 <= value <= 34`. -/
def isValidFreeImageFormat (v : Int) : Bool :=
  decide (-1 ≤ v ∧ v ≤ 34)

/-- `free_image_format_to_mipmap_format`: the one-to-one value table
(`FIF_UNKNOWN` and out-of-range values raise). -/
def free_image_format_to_mipmap_format (v : Int) : Except String MipmapFormat :=
  if v = -1 then .error "Exception: cannot convert FIF_UNKNOWN to MipmapFormat"
  else if v = 0 then .ok .ImageBMP
  else if v = 1 then .ok .ImageICO
  else if v = 2 then .ok .ImageJPEG
  else if v = 3 then .ok .ImageJNG
  else if v = 4 then .ok .ImageKOALA
  else if v = 5 then .ok .ImageLBM
  else if v = 6 then .ok .ImageMNG
  else if v = 7 then .ok .ImagePBM
  else if v = 8 then .ok .ImagePBMRAW
  else if v = 9 then .ok .ImagePCD
  else if v = 10 then .ok .ImagePCX
  else if v = 11 then .ok .ImagePGM
  else if v = 12 then .ok .ImagePGMRAW
  else if v = 13 then .ok .ImagePNG
  else if v = 14 then .ok .ImagePPM
  else if v = 15 then .ok .ImagePPMRAW
  else if v = 16 then .ok .ImageRAS
  else if v = 17 then .ok .ImageTARGA
  else if v = 18 then .ok .ImageTIFF
  else if v = 19 then .ok .ImageWBMP
  else if v = 20 then .ok .ImagePSD
  else if v = 21 then .ok .ImageCUT
  else if v = 22 then .ok .ImageXBM
  else if v = 23 then .ok .ImageXPM
  else if v = 24 then .ok .ImageDDS
  else if v = 25 then .ok .ImageGIF
  else if v = 26 then .ok .ImageHDR
  else if v = 27 then .ok .ImageFAXG3
  else if v = 28 then .ok .ImageSGI
  else if v = 29 then .ok .ImageEXR
  else if v = 30 then .ok .ImageJ2K
  else if v = 31 then .ok .ImageJP2
  else if v = 32 then .ok .ImagePFM
  else if v = 33 then .ok .ImagePICT
  else if v = 34 then .ok .ImageRAW
  else .error "Exception: Argument out of range"

/-- `get_format_for_tex`: an explicit external-image format wins; otherwise
the texture-level format maps through the fixed table. -/
def get_format_for_tex (imageFormat : Int) (texFormat : TexFormat) :
    Except String MipmapFormat :=
  if imageFormat ≠ FIF_UNKNOWN then
    free_image_format_to_mipmap_format imageFormat
  else
    match texFormat with
    | .RGBA8888 => .ok .RGBA8888
    | .DXT5 => .ok .CompressedDXT5
    | .DXT3 => .ok .CompressedDXT3
    | .DXT1 => .ok .CompressedDXT1
    | .R8 => .ok .R8
    | .RG88 => .ok .RG88

/-- `struct.unpack`-style exact read: raises when the stream is short. -/
def readExact (fd : ByteStream) (n : Nat) : Except String (List Nat × ByteStream) :=
  let (r, fd) := fdRead fd n
  if r.length ≠ n then .error "struct.error" else .ok (r, fd)

/-- A little-endian signed 32-bit value from 4 bytes. -/
def i32ofBytes (bs : List Nat) : Int :=
  let v := leNat bs
  if v < 2 ^ 31 then (v : Int) else (v : Int) - 2 ^ 32

/-- `read_n_bytes(fd)` with the default `"<i"` format. -/
def readI32 (fd : ByteStream) : Except String (Int × ByteStream) := do
  let (bs, fd) ← readExact fd 4
  pure (i32ofBytes bs, fd)

/-- `read_n_bytes(fd, "<8sx")`: 8 magic bytes and a pad byte. -/
def readMagic (fd : ByteStream) : Except String (List Nat × ByteStream) := do
  let (bs, fd) ← readExact fd 9
  pure (bs.take 8, fd)

def TEXV0005bytes : List Nat := [84, 69, 88, 86, 48, 48, 48, 53]

def TEXI0001bytes : List Nat := [84, 69, 88, 73, 48, 48, 48, 49]

def TEXB0001bytes : List Nat := [84, 69, 88, 66, 48, 48, 48, 49]

def TEXB0002bytes : List Nat := [84, 69, 88, 66, 48, 48, 48, 50]

def TEXB0003bytes : List Nat := [84, 69, 88, 66, 48, 48, 48, 51]

def TEXS0001bytes : List Nat := [84, 69, 88, 83, 48, 48, 48, 49]

def TEXS0002bytes : List Nat := [84, 69, 88, 83, 48, 48, 48, 50]

def TEXS0003bytes : List Nat := [84, 69, 88, 83, 48, 48, 48, 51]

/-- `TexFrameInfo` (the float-encoded fields are kept as their raw 32-bit
words; no claim depends on their float interpretation). -/
structure TexFrameInfo where
  image_id : Int
  frame_time : Int
  x : Int
  y : Int
  width : Int
  width_y : Int
  height_x : Int
  height : Int
  deriving Repr

/-- `TexFrameInfoContainer` after `read`. -/
structure TexFrameInfoContainer where
  magic : List Nat
  frames : List TexFrameInfo
  gif_width : Int
  gif_height : Int
  deriving Repr

/-- `TexImage` (only the mipmaps survive parsing). -/
structure TexImage where
  mipmaps : List TexMipmap
  deriving Repr

/-- `TexImageContainer`. -/
structure TexImageContainer where
  magic : List Nat
  images : List TexImage
  version : TexImageContainerVersion
  format : Int
  deriving Repr

/-- The parsed `Texture` object. -/
structure Texture where
  format : TexFormat
  flags : Int
  textureWidth : Int
  textureHeight : Int
  imageWidth : Int
  imageHeight : Int
  unkInt0 : Int
  images_container : TexImageContainer
  frame_info_container : Option TexFrameInfoContainer
  deriving Repr

/-- `Texture.has_flag` (`(flags & flag) == flag`; header flags are
non-negative in practice, so the Nat bitwise view coincides). -/
def texHasFlag (flags flag : Int) : Bool :=
  decide (flags.toNat &&& flag.toNat = flag.toNat)

/-- One frame record: 8 little-endian 32-bit words (`"<if6i"` and `"<i7f"`
both decode 8 words; float fields stay raw). -/
def readFrame (fd : ByteStream) : Except String (TexFrameInfo × ByteStream) := do
  let (a, fd) ← readI32 fd
  let (b, fd) ← readI32 fd
  let (c, fd) ← readI32 fd
  let (d, fd) ← readI32 fd
  let (e, fd) ← readI32 fd
  let (f, fd) ← readI32 fd
  let (g, fd) ← readI32 fd
  let (h, fd) ← readI32 fd
  pure (⟨a, b, c, d, e, f, g, h⟩, fd)

/-- `TexFrameInfoContainer.read`. -/
def texFrameInfoRead (fd : ByteStream) :
    Except String (TexFrameInfoContainer × ByteStream) := do
  let (magic, fd) ← readMagic fd
  let (framesCount, fd) ← readI32 fd
  let (frames, gifW, gifH, fd) ←
    if magic = TEXS0001bytes ∨ magic = TEXS0002bytes then do
      let st ← (List.range framesCount.toNat).foldlM
        (fun (st : List TexFrameInfo × ByteStream) _ => do
          let (fr, fd) ← readFrame st.2
          pure (st.1 ++ [fr], fd)) ([], fd)
      pure (st.1, (0 : Int), (0 : Int), st.2)
    else if magic = TEXS0003bytes then do
      let (gw, fd) ← readI32 fd
      let (gh, fd) ← readI32 fd
      let st ← (List.range framesCount.toNat).foldlM
        (fun (st : List TexFrameInfo × ByteStream) _ => do
          let (fr, fd) ← readFrame st.2
          pure (st.1 ++ [fr], fd)) ([], fd)
      pure (st.1, gw, gh, st.2)
    else
      .error "UnknownMagicError"
  if gifW = 0 ∨ gifH = 0 then do
    let first ← match frames.head? with
      | some fr => pure fr
      | none => .error "IndexError"
    pure (⟨magic, frames, first.width, first.height⟩, fd)
  else
    pure (⟨magic, frames, gifW, gifH⟩, fd)

/-- `TexImage.read_bytes`: a u32 byte count, then exactly that many bytes
(raising when the stream is short). -/
def texReadBytes (fd : ByteStream) : Except String (List Nat × ByteStream) := do
  let (byteCount, fd) ← readI32 fd
  let (bs, fd) := fdRead fd byteCount.toNat
  if (bs.length : Int) ≠ byteCount then
    .error "ValueError: Failed to read bytes from stream while reading mipmap"
  else
    .ok (bs, fd)

/-- `TexImage.read_mipmap_v1`. -/
def read_mipmap_v1 (fd : ByteStream) : Except String (TexMipmap × ByteStream) := do
  let (w, fd) ← readI32 fd
  let (h, fd) ← readI32 fd
  let (data, fd) ← texReadBytes fd
  pure (⟨data, w, h, false, 0, .Invalid⟩, fd)

/-- `TexImage.read_mipmap_v2_and_v3`. -/
def read_mipmap_v2_and_v3 (fd : ByteStream) :
    Except String (TexMipmap × ByteStream) := do
  let (w, fd) ← readI32 fd
  let (h, fd) ← readI32 fd
  let (lz4flag, fd) ← readI32 fd
  let (count, fd) ← readI32 fd
  let (data, fd) ← texReadBytes fd
  pure (⟨data, w, h, lz4flag = 1, count, .Invalid⟩, fd)

/-- `TexImage.read`: mipmap count, version-selected record reader, one format
resolution per image, and decompression of every mipmap. -/
def texImageRead (lz4 : List Nat → Int → List Nat) (containerFormat : Int)
    (version : TexImageContainerVersion) (texFormat : TexFormat)
    (fd : ByteStream) : Except String (TexImage × ByteStream) := do
  let (mipmapCount, fd) ← readI32 fd
  let mipmapFormat ← get_format_for_tex containerFormat texFormat
  let st ← (List.range mipmapCount.toNat).foldlM
    (fun (st : List TexMipmap × ByteStream) _ => do
      let (m, fd) ← match version with
        | .Version1 => read_mipmap_v1 st.2
        | .Version2 | .Version3 => read_mipmap_v2_and_v3 st.2
      let m := { m with format := mipmapFormat }
      let m ← decompress_mipmap lz4 m
      pure (st.1 ++ [m], fd)) ([], fd)
  pure (⟨st.1⟩, st.2)

/-- `Texture._read_header`: the fixed 46-byte record `"<8sx8sx7i"`, the two
magic literals, enum construction of the format tag (a `ValueError` for any
value outside the member set) and the (always-true) validity check. -/
def texReadHeader (fd : ByteStream) :
    Except String ((TexFormat × Int × Int × Int × Int × Int × Int) × ByteStream) := do
  let (bs, fd) ← readExact fd 46
  let magic1 := bs.take 8
  let magic2 := (bs.drop 9).take 8
  if magic1 ≠ TEXV0005bytes ∨ magic2 ≠ TEXI0001bytes then
    .error "UnknownMagicError: Incorrect magic value"
  else do
    let format ← match TexFormat.ofValue (i32ofBytes ((bs.drop 18).take 4)) with
      | some f => pure f
      | none => .error "ValueError: invalid TexFormat"
    let flags := i32ofBytes ((bs.drop 22).take 4)
    let textureWidth := i32ofBytes ((bs.drop 26).take 4)
    let textureHeight := i32ofBytes ((bs.drop 30).take 4)
    let imageWidth := i32ofBytes ((bs.drop 34).take 4)
    let imageHeight := i32ofBytes ((bs.drop 38).take 4)
    let unkInt0 := i32ofBytes ((bs.drop 42).take 4)
    if ¬ isValidTexFormat format then
      .error "InvalidTextureFormat"
    else
      pure ((format, flags, textureWidth, textureHeight, imageWidth,
        imageHeight, unkInt0), fd)

/-- `Texture._read_image_container`: container magic, image count, the
version-3 external format (an out-of-range value is caught and replaced by
`FIF_UNKNOWN`), version resolution from the magic digits, the (always-true)
format validity check, and the image loop. -/
def texReadImageContainer (lz4 : List Nat → Int → List Nat)
    (texFormat : TexFormat) (fd : ByteStream) :
    Except String (TexImageContainer × ByteStream) := do
  let (magic, fd) ← readMagic fd
  let (imageCount, fd) ← readI32 fd
  let (containerFormat, fd) ←
    if magic = TEXB0001bytes ∨ magic = TEXB0002bytes then
      pure (FIF_UNKNOWN, fd)
    else if magic = TEXB0003bytes then do
      let (v, fd) ← readI32 fd
      pure ((if isValidFreeImageFormat v then v else FIF_UNKNOWN), fd)
    else
      (.error "UnknownMagicError" :
        Except String (Int × ByteStream))
  let version ←
    if magic = TEXB0001bytes then pure TexImageContainerVersion.Version1
    else if magic = TEXB0002bytes then pure TexImageContainerVersion.Version2
    else if magic = TEXB0003bytes then pure TexImageContainerVersion.Version3
    else .error "ValueError: invalid TexImageContainerVersion"
  if ¬ isValidFreeImageFormat containerFormat then
    .error "InvalidTextureFormat"
  else do
    let st ← (List.range imageCount.toNat).foldlM
      (fun (st : List TexImage × ByteStream) _ => do
        let (img, fd) ← texImageRead lz4 containerFormat version texFormat st.2
        pure (st.1 ++ [img], fd)) ([], fd)
    pure (⟨magic, st.1, version, containerFormat⟩, st.2)

/-- `Texture.__init__` over an in-memory stream: header, image container, and
the frame-info container when the `IsGif` flag (bit 4) is set. -/
def texParse (lz4 : List Nat → Int → List Nat) (data : List Nat) :
    Except String Texture := do
  let fd : ByteStream := ⟨data, 0⟩
  let (hdr, fd) ← texReadHeader fd
  let (format, flags, tw, th, iw, ih, unk) := hdr
  let (container, fd) ← texReadImageContainer lz4 format fd
  if texHasFlag flags 4 then do
    let (fic, _) ← texFrameInfoRead fd
    pure ⟨format, flags, tw, th, iw, ih, unk, container, some fic⟩
  else
    pure ⟨format, flags, tw, th, iw, ih, unk, container, none⟩

/-- A valid 46-byte texture header: `TEXV0005`/`TEXI0001`, format DXT1 (7),
flags 0, sizes 4, reserved 0. -/
def texHeaderDXT1 : List Nat :=
  TEXV0005bytes ++ [0] ++ TEXI0001bytes ++ [0] ++
  [7, 0, 0, 0] ++ [0, 0, 0, 0] ++ [4, 0, 0, 0] ++ [4, 0, 0, 0] ++
  [4, 0, 0, 0] ++ [4, 0, 0, 0] ++ [0, 0, 0, 0]

/-- A `TEXB0003` container prefix with image count 0 (the external-format
i32 follows). -/
def texContainerV3Prefix : List Nat :=
  TEXB0003bytes ++ [0] ++ [0, 0, 0, 0]

example : (texParse (fun _ _ => [])
    (texHeaderDXT1 ++ texContainerV3Prefix ++ [99, 0, 0, 0])).map
      (fun t => t.images_container.format) = .ok (-1) := by rfl

example : texParse (fun _ _ => [])
    (TEXV0005bytes ++ [0] ++ TEXI0001bytes ++ [0] ++ [99, 0, 0, 0] ++
      List.replicate 24 0) = .error "ValueError: invalid TexFormat" := by rfl

/-! ## Claim C5: enum range validation -/

/-- C5 counterexample: a `TEXB0003` image container whose external-image
format code is 99 — outside `[-1, 34]` — does not abort the parse: the
`ValueError` is caught, the format becomes `FIF_UNKNOWN` (-1), and parsing
succeeds. -/
theorem claim_C5_counterexample :
    (texParse (fun _ _ => []) (texHeaderDXT1 ++ texContainerV3Prefix ++ [99, 0, 0, 0])).map
      (fun t => t.images_container.format) = .ok (-1) ∧
    isValidFreeImageFormat 99 = false :=
  ⟨by rfl, by decide⟩

/-- C5 amended: a header format tag outside the `TexFormat` member set
`{0, 4, 6, 7, 8, 9}` aborts the parse with the enum-construction error
before the image container is read (the error is independent of whatever
follows the header), while a `TEXB0003` external-image-format code outside
`[-1, 34]` is caught and replaced with `FIF_UNKNOWN` and the parse
continues. -/
theorem claim_C5_amended :
    (∀ (lz4 : List Nat → Int → List Nat) (data : List Nat),
      46 ≤ data.length →
      (data.take 46).take 8 = TEXV0005bytes →
      ((data.take 46).drop 9).take 8 = TEXI0001bytes →
      TexFormat.ofValue (i32ofBytes (((data.take 46).drop 18).take 4)) = none →
      texParse lz4 data = .error "ValueError: invalid TexFormat") ∧
    (∀ (lz4 : List Nat → Int → List Nat) (e0 e1 e2 e3 : Nat),
      isValidFreeImageFormat (i32ofBytes [e0, e1, e2, e3]) = false →
      ∃ t, texParse lz4 (texHeaderDXT1 ++ texContainerV3Prefix ++ [e0, e1, e2, e3]) =
          .ok t ∧
        t.images_container.format = FIF_UNKNOWN) := by
  constructor
  · intro lz4 data hlen h1 h2 hfmt
    unfold texParse
    dsimp only
    have hh : texReadHeader ⟨data, 0⟩ = .error "ValueError: invalid TexFormat" := by
      unfold texReadHeader readExact fdRead
      dsimp only
      rw [List.drop_zero]
      rw [if_neg (show ¬((data.take 46).length ≠ 46) from by
        simp only [List.length_take]
        omega)]
      dsimp only [except_bind_ok]
      rw [if_neg (show ¬((data.take 46).take 8 ≠ TEXV0005bytes ∨
          ((data.take 46).drop 9).take 8 ≠ TEXI0001bytes) from by
        rw [h1, h2]; simp)]
      rw [hfmt]
      rfl
    rw [hh]
    rfl
  · intro lz4 e0 e1 e2 e3 hv
    refine ⟨⟨.DXT1, 0, 4, 4, 4, 4, 0, ⟨TEXB0003bytes, [], .Version3, FIF_UNKNOWN⟩,
      none⟩, ?_, rfl⟩
    unfold texParse
    dsimp only
    rw [show texReadHeader ⟨texHeaderDXT1 ++ texContainerV3Prefix ++ [e0, e1, e2, e3], 0⟩ =
      .ok ((TexFormat.DXT1, 0, 4, 4, 4, 4, 0),
        ⟨texHeaderDXT1 ++ texContainerV3Prefix ++ [e0, e1, e2, e3], 46⟩) from rfl]
    dsimp only [except_bind_ok]
    have hc : texReadImageContainer lz4 .DXT1
        ⟨texHeaderDXT1 ++ texContainerV3Prefix ++ [e0, e1, e2, e3], 46⟩ =
        .ok (⟨TEXB0003bytes, [], .Version3, FIF_UNKNOWN⟩,
          ⟨texHeaderDXT1 ++ texContainerV3Prefix ++ [e0, e1, e2, e3], 63⟩) := by
      unfold texReadImageContainer
      dsimp only
      rw [show readMagic ⟨texHeaderDXT1 ++ texContainerV3Prefix ++ [e0, e1, e2, e3], 46⟩ =
        .ok (TEXB0003bytes,
          ⟨texHeaderDXT1 ++ texContainerV3Prefix ++ [e0, e1, e2, e3], 55⟩) from rfl]
      dsimp only [except_bind_ok]
      rw [show readI32 ⟨texHeaderDXT1 ++ texContainerV3Prefix ++ [e0, e1, e2, e3], 55⟩ =
        .ok ((0 : Int),
          ⟨texHeaderDXT1 ++ texContainerV3Prefix ++ [e0, e1, e2, e3], 59⟩) from rfl]
      dsimp only [except_bind_ok]
      rw [if_neg (by decide :
        ¬(TEXB0003bytes = TEXB0001bytes ∨ TEXB0003bytes = TEXB0002bytes))]
      rw [if_pos (rfl : TEXB0003bytes = TEXB0003bytes)]
      rw [show readI32 ⟨texHeaderDXT1 ++ texContainerV3Prefix ++ [e0, e1, e2, e3], 59⟩ =
        .ok (i32ofBytes [e0, e1, e2, e3],
          ⟨texHeaderDXT1 ++ texContainerV3Prefix ++ [e0, e1, e2, e3], 63⟩) from rfl]
      dsimp only [except_bind_ok]
      rw [if_neg (show ¬(isValidFreeImageFormat (i32ofBytes [e0, e1, e2, e3]) = true)
        from by rw [hv]; simp)]
      rfl
    rw [hc]
    rfl

/-- Witness for the amended C5: header format tag 99 aborts; external format
code 99 in a `TEXB0003` container is coerced to `FIF_UNKNOWN`. -/
theorem claim_C5_amended_witness :
    texParse (fun _ _ => [])
      (TEXV0005bytes ++ [0] ++ TEXI0001bytes ++ [0] ++ [99, 0, 0, 0] ++
        List.replicate 24 0) = .error "ValueError: invalid TexFormat" ∧
    (∃ t, texParse (fun _ _ => [])
        (texHeaderDXT1 ++ texContainerV3Prefix ++ [99, 0, 0, 0]) = .ok t ∧
      t.images_container.format = FIF_UNKNOWN) :=
  ⟨claim_C5_amended.1 (fun _ _ => [])
      (TEXV0005bytes ++ [0] ++ TEXI0001bytes ++ [0] ++ [99, 0, 0, 0] ++
        List.replicate 24 0) (by decide) (by decide) (by decide) (by decide),
   claim_C5_amended.2 (fun _ _ => []) 99 0 0 0 (by decide)⟩
